import Mathlib

/-!
Verification development for the `image-definitions` catalog service.

The repository stores a five-level hierarchy
ProductGroup → Product → Architecture → Variant → Artifact
behind a REST API (`src/image_definitions/api/*.py`) and seeds it from a
YAML configuration through a bootstrap engine (`scripts/bootstrap.py`).
This file gives a shallow embedding of the data model, the repository
endpoints and the bootstrap engine, and proves properties of them.

Machine integers: the service uses arbitrary-precision Python integers
and database row ids, so ids, counters and sizes are modelled as `Nat`
(or `Int` for artifact sizes); no overflow arithmetic is involved.
-/

/-- Opaque YAML/JSON scalar-or-structure values carried through the
configuration document and the `build_config` documents verbatim. -/
inductive Val where
  | s : String → Val
  | i : Int → Val
  | b : Bool → Val
  | list : List Val → Val
  | dict : List (String × Val) → Val
deriving Repr

/-- Python `str()` on a configuration value, as used for
`str(product_data.get("releasever", "1.0"))`.  Only determinism and the
string/int cases matter to the bootstrap flow; structures get a fixed
deterministic rendering. -/
def pyStr : Val → String
  | .s x => x
  | .i n => toString n
  | .b true => "True"
  | .b false => "False"
  | .list _ => "[...]"
  | .dict _ => "{...}"

/-- Python `str.lower()` on an (ASCII) name, as used for the blacklist
matching; defined by a structural character map so it evaluates. -/
def pyLower (s : String) : String := ⟨s.data.map Char.toLower⟩

/-- Enumeration `ArtifactType` from `models/artifact.py`. -/
inductive ArtifactType where
  | base_image
  | cloud_image
  | region_copy
  | account_share
deriving Repr, DecidableEq

/-- String value of each `ArtifactType` member (it is a `str` Enum). -/
def ArtifactType.value : ArtifactType → String
  | .base_image => "base_image"
  | .cloud_image => "cloud_image"
  | .region_copy => "region_copy"
  | .account_share => "account_share"

/-- Enumeration `ArtifactStatus` from `models/artifact.py`. -/
inductive ArtifactStatus where
  | pending
  | building
  | completed
  | failed
  | deprecated
deriving Repr, DecidableEq

/-- String value of each `ArtifactStatus` member. -/
def ArtifactStatus.value : ArtifactStatus → String
  | .pending => "pending"
  | .building => "building"
  | .completed => "completed"
  | .failed => "failed"
  | .deprecated => "deprecated"

/-- A `product_groups` table row (`models/product_group.py`).  The `id`
and `created_at` columns come from the shared declarative `Base`.
Modelled from the spec: `models/base.py` is not in the provided sources;
per the spec every entity carries a server-assigned integer id and
store-owned timestamps, modelled here as an id and an insertion-time
tick. -/
structure ProductGroupRow where
  id : Nat
  name : String
  description : Option String
  created_at : Nat
  updated_at : Nat
deriving Repr, DecidableEq

/-- A `products` table row (`models/product.py`). -/
structure ProductRow where
  id : Nat
  name : String
  description : Option String
  version : Option String
  product_group_id : Nat
  created_at : Nat
  updated_at : Nat
deriving Repr, DecidableEq

/-- An `architectures` table row (`models/architecture.py`). -/
structure ArchitectureRow where
  id : Nat
  name : String
  display_name : Option String
  description : Option String
  product_id : Nat
  created_at : Nat
  updated_at : Nat
deriving Repr, DecidableEq

/-- A `variants` table row (`models/variant.py`); `build_config` is an
opaque JSON document, kept as an ordered key/value list. -/
structure VariantRow where
  id : Nat
  name : String
  description : Option String
  build_config : Option (List (String × Val))
  architecture_id : Nat
  created_at : Nat
  updated_at : Nat
deriving Repr

/-- An `artifacts` table row (`models/artifact.py`). -/
structure ArtifactRow where
  id : Nat
  name : String
  artifact_type : ArtifactType
  status : ArtifactStatus
  location : Option String
  region : Option String
  account_id : Option String
  size_bytes : Option Int
  checksum : Option String
  build_id : Option String
  build_metadata : Option (List (String × Val))
  variant_id : Nat
  created_at : Nat
  updated_at : Nat
deriving Repr

/-- The relational store: one list of rows per table, a server-side id
sequence, and a clock tick used for `created_at` stamps. -/
structure Store where
  groups : List ProductGroupRow
  products : List ProductRow
  architectures : List ArchitectureRow
  variants : List VariantRow
  artifacts : List ArtifactRow
  nextId : Nat
  clock : Nat
deriving Repr

/-- The empty store a fresh database starts from. -/
def emptyStore : Store :=
  { groups := [], products := [], architectures := [], variants := [],
    artifacts := [], nextId := 1, clock := 0 }

/-- Python truthiness of an `Optional[int]` query parameter:
`None` and `0` are falsy, every other integer is truthy. -/
def natParamTruthy : Option Nat → Bool
  | none => false
  | some n => n != 0

/-- Python truthiness of an `Optional[str]` query parameter:
`None` and the empty string are falsy. -/
def strParamTruthy : Option String → Bool
  | none => false
  | some r => r != ""

/-- Python truthiness of an optional `str`-Enum query parameter: an enum
member is truthy exactly when its string value is nonempty. -/
def typeParamTruthy : Option ArtifactType → Bool
  | none => false
  | some t => t.value != ""

/-- Truthiness of an optional `ArtifactStatus` parameter. -/
def statusParamTruthy : Option ArtifactStatus → Bool
  | none => false
  | some t => t.value != ""

/-- Insert into a list that is already sorted by `key` descending,
keeping earlier elements first on ties. -/
def insertDesc (key : α → Nat) (x : α) : List α → List α
  | [] => [x]
  | y :: ys => if key x ≤ key y then y :: insertDesc key x ys else x :: y :: ys

/-- Sort a list by `key` descending (the `ORDER BY created_at DESC` of
the list endpoints). -/
def sortDesc (key : α → Nat) : List α → List α
  | [] => []
  | x :: xs => insertDesc key x (sortDesc key xs)

/-- SQL `WHERE` / `ORDER BY` / `OFFSET` / `LIMIT` evaluation order shared
by every list endpoint: filter, sort newest-first, then paginate. -/
def pageQuery (key : α → Nat) (keep : α → Bool) (skip limit : Nat)
    (rows : List α) : List α :=
  ((sortDesc key (rows.filter keep)).drop skip).take limit

/-- This is `list_products` (`api/products.py`): paginated newest-first
listing, filtered by `product_group_id` only when that value is truthy. -/
def list_products (skip limit : Nat) (product_group_id : Option Nat)
    (st : Store) : List ProductRow :=
  pageQuery (fun p => p.created_at)
    (fun p => if natParamTruthy product_group_id
              then p.product_group_id == product_group_id.getD 0 else true)
    skip limit st.products

/-- This is `list_architectures` (`api/architectures.py`). -/
def list_architectures (skip limit : Nat) (product_id : Option Nat)
    (st : Store) : List ArchitectureRow :=
  pageQuery (fun a => a.created_at)
    (fun a => if natParamTruthy product_id
              then a.product_id == product_id.getD 0 else true)
    skip limit st.architectures

/-- This is `list_variants` (`api/variants.py`). -/
def list_variants (skip limit : Nat) (architecture_id : Option Nat)
    (st : Store) : List VariantRow :=
  pageQuery (fun v => v.created_at)
    (fun v => if natParamTruthy architecture_id
              then v.architecture_id == architecture_id.getD 0 else true)
    skip limit st.variants

/-- This is `list_artifacts` (`api/artifacts.py`): the variant filter is
applied only when truthy, and the type/status/region filters only when
their parameter is truthy. -/
def list_artifacts (skip limit : Nat) (variant_id : Option Nat)
    (artifact_type : Option ArtifactType) (status : Option ArtifactStatus)
    (region : Option String) (st : Store) : List ArtifactRow :=
  pageQuery (fun a => a.created_at)
    (fun a =>
      (if natParamTruthy variant_id
       then a.variant_id == variant_id.getD 0 else true) &&
      (if typeParamTruthy artifact_type
       then a.artifact_type == artifact_type.getD .base_image else true) &&
      (if statusParamTruthy status
       then a.status == status.getD .pending else true) &&
      (if strParamTruthy region
       then a.region == some (region.getD "") else true))
    skip limit st.artifacts

/-- Python `x or default` on an optional string: `None` and `""` are
falsy and give the default. -/
def pyOrStr (v : Option String) (d : String) : String :=
  match v with
  | none => d
  | some s => if s == "" then d else s

/-- An HTTP failure as raised by the API handlers
(`HTTPException(status_code, detail)`). -/
structure HTTPError where
  status_code : Nat
  detail : String
deriving Repr, DecidableEq

/-- Detail string of the ProductGroup name-conflict error,
`f"Product group with name '{name}' already exists"`. -/
def conflictDetail (name : String) : String :=
  "Product group with name \x27" ++ name ++ "\x27 already exists"

namespace Api

/-- Request body `ProductGroupCreate` (`schemas/product_group.py`). -/
structure ProductGroupCreate where
  name : String
  description : Option String := none

/-- Request body `ProductGroupUpdate`; a `some` field is a supplied
field, `none` is an unsupplied one (pydantic `exclude_unset`). -/
structure ProductGroupUpdate where
  name : Option String := none
  description : Option String := none

/-- Request body `ProductCreate` (`schemas/product.py`). -/
structure ProductCreate where
  name : String
  description : Option String := none
  version : Option String := none
  product_group_id : Nat

/-- Request body `ArchitectureCreate` (`schemas/architecture.py`). -/
structure ArchitectureCreate where
  name : String
  display_name : Option String := none
  description : Option String := none
  product_id : Nat

/-- Request body `VariantCreate` (`schemas/variant.py`). -/
structure VariantCreate where
  name : String
  description : Option String := none
  build_config : Option (List (String × Val)) := none
  architecture_id : Nat

/-- Request body `ArtifactCreate` (`schemas/artifact.py`); `status`
defaults to `pending`. -/
structure ArtifactCreate where
  name : String
  artifact_type : ArtifactType
  location : Option String := none
  region : Option String := none
  account_id : Option String := none
  size_bytes : Option Int := none
  checksum : Option String := none
  build_id : Option String := none
  build_metadata : Option (List (String × Val)) := none
  variant_id : Nat
  status : ArtifactStatus := .pending

/-- This is `create_product_group` (`api/product_groups.py`): reject a
name that some existing group already carries, otherwise insert.  The
resulting store is returned in both cases; a raised `HTTPException`
leaves the session uncommitted, so the store is unchanged on error. -/
def create_product_group (pg : ProductGroupCreate) (st : Store) :
    Except HTTPError ProductGroupRow × Store :=
  match st.groups.find? (fun g => g.name == pg.name) with
  | some _ => (.error ⟨400, conflictDetail pg.name⟩, st)
  | none =>
    let row : ProductGroupRow :=
      { id := st.nextId, name := pg.name, description := pg.description,
        created_at := st.clock, updated_at := st.clock }
    (.ok row,
     { st with groups := st.groups ++ [row], nextId := st.nextId + 1,
               clock := st.clock + 1 })

/-- This is `update_product_group` (`api/product_groups.py`): 404 when
the id is absent; when a new name differing from the current one is
supplied, reject it if any group already carries it; otherwise apply the
supplied fields. -/
def update_product_group (product_group_id : Nat)
    (upd : ProductGroupUpdate) (st : Store) :
    Except HTTPError ProductGroupRow × Store :=
  match st.groups.find? (fun g => g.id == product_group_id) with
  | none => (.error ⟨404, "Product group not found"⟩, st)
  | some g =>
    let apply : Except HTTPError ProductGroupRow × Store :=
      let g' : ProductGroupRow :=
        { g with name := upd.name.getD g.name,
                 description := match upd.description with
                                | some d => some d
                                | none => g.description,
                 updated_at := st.clock }
      (.ok g',
       { st with groups := st.groups.map (fun h => if h.id == g.id then g' else h),
                 clock := st.clock + 1 })
    match upd.name with
    | some n =>
      if n != g.name && (st.groups.find? (fun h => h.name == n)).isSome then
        (.error ⟨400, conflictDetail n⟩, st)
      else apply
    | none => apply

/-- This is `create_product` (`api/products.py`): verify the referenced
product group exists (400 `detail="Product group not found"` otherwise),
then insert. -/
def create_product (p : ProductCreate) (st : Store) :
    Except HTTPError ProductRow × Store :=
  match st.groups.find? (fun g => g.id == p.product_group_id) with
  | none => (.error ⟨400, "Product group not found"⟩, st)
  | some _ =>
    let row : ProductRow :=
      { id := st.nextId, name := p.name, description := p.description,
        version := p.version, product_group_id := p.product_group_id,
        created_at := st.clock, updated_at := st.clock }
    (.ok row,
     { st with products := st.products ++ [row], nextId := st.nextId + 1,
               clock := st.clock + 1 })

/-- This is `create_architecture` (`api/architectures.py`). -/
def create_architecture (a : ArchitectureCreate) (st : Store) :
    Except HTTPError ArchitectureRow × Store :=
  match st.products.find? (fun p => p.id == a.product_id) with
  | none => (.error ⟨400, "Product not found"⟩, st)
  | some _ =>
    let row : ArchitectureRow :=
      { id := st.nextId, name := a.name, display_name := a.display_name,
        description := a.description, product_id := a.product_id,
        created_at := st.clock, updated_at := st.clock }
    (.ok row,
     { st with architectures := st.architectures ++ [row],
               nextId := st.nextId + 1, clock := st.clock + 1 })

/-- This is `create_variant` (`api/variants.py`). -/
def create_variant (v : VariantCreate) (st : Store) :
    Except HTTPError VariantRow × Store :=
  match st.architectures.find? (fun a => a.id == v.architecture_id) with
  | none => (.error ⟨400, "Architecture not found"⟩, st)
  | some _ =>
    let row : VariantRow :=
      { id := st.nextId, name := v.name, description := v.description,
        build_config := v.build_config, architecture_id := v.architecture_id,
        created_at := st.clock, updated_at := st.clock }
    (.ok row,
     { st with variants := st.variants ++ [row], nextId := st.nextId + 1,
               clock := st.clock + 1 })

/-- This is `create_artifact` (`api/artifacts.py`). -/
def create_artifact (a : ArtifactCreate) (st : Store) :
    Except HTTPError ArtifactRow × Store :=
  match st.variants.find? (fun v => v.id == a.variant_id) with
  | none => (.error ⟨400, "Variant not found"⟩, st)
  | some _ =>
    let row : ArtifactRow :=
      { id := st.nextId, name := a.name, artifact_type := a.artifact_type,
        status := a.status, location := a.location, region := a.region,
        account_id := a.account_id, size_bytes := a.size_bytes,
        checksum := a.checksum, build_id := a.build_id,
        build_metadata := a.build_metadata, variant_id := a.variant_id,
        created_at := st.clock, updated_at := st.clock }
    (.ok row,
     { st with artifacts := st.artifacts ++ [row], nextId := st.nextId + 1,
               clock := st.clock + 1 })

/-- Result document of `GET /artifacts/stats/summary`. -/
structure ArtifactStats where
  by_type : List (ArtifactType × Nat)
  by_status : List (ArtifactStatus × Nat)
  total_size_bytes : Int
deriving Repr, DecidableEq

/-- SQL `SUM` over a column: `NULL` values are ignored, and the result
is `NULL` when no non-`NULL` value remains. -/
def sqlSum (l : List Int) : Option Int :=
  match l with
  | [] => none
  | _ => some l.sum

/-- Python `x or 0` applied to the scalar result of the `SUM` query. -/
def pyOrZero : Option Int → Int
  | none => 0
  | some v => if v == 0 then 0 else v

/-- This is `get_artifact_stats` (`api/artifacts.py`): group the
artifact rows by type with counts, by status with counts, and total
their `size_bytes` (`NULL` sum coerced to 0 by `or 0`). -/
def get_artifact_stats (st : Store) : ArtifactStats :=
  let rows := st.artifacts
  { by_type :=
      ((rows.map (fun a => a.artifact_type)).dedup).map
        (fun t => (t, rows.countP (fun a => a.artifact_type == t)))
  , by_status :=
      ((rows.map (fun a => a.status)).dedup).map
        (fun s => (s, rows.countP (fun a => a.status == s)))
  , total_size_bytes := pyOrZero (sqlSum (rows.filterMap (fun a => a.size_bytes))) }

end Api

namespace Bootstrap

/-- Outcome of running the body of one per-item `try` block: `ok` means
the body runs normally, `caught` models an `Exception` raised inside the
body (stopped by the item's `except Exception` handler), and `fatal`
models a failure at that item that escapes the per-item catch boundary
(e.g. an error raised outside the `try`, or a `BaseException`). -/
inductive Fault where
  | ok
  | caught
  | fatal
deriving Repr, DecidableEq

/-- Fault injection for a run: which items fail, keyed by group name,
product name, and (product name, architecture name). -/
structure Oracle where
  groupFault : String → Fault
  productFault : String → Fault
  archFault : String → String → Fault

/-- The fault-free run, where no handler body raises. -/
def noFault : Oracle :=
  { groupFault := fun _ => .ok, productFault := fun _ => .ok,
    archFault := fun _ _ => .ok }

/-- The `self.stats` counter dictionary of `ConfigBootstrapper`. -/
structure Stats where
  product_groups_created : Nat
  products_created : Nat
  variants_created : Nat
  skipped : Nat
  errors : Nat
deriving Repr, DecidableEq

/-- The all-zero counters a bootstrapper starts with. -/
def initStats : Stats :=
  { product_groups_created := 0, products_created := 0,
    variants_created := 0, skipped := 0, errors := 0 }

/-- Fields of one product entry of the configuration document, when that
entry is a YAML mapping; `none` marks an absent key. -/
structure ProductData where
  just_like : Option Val := none
  releasever : Option Val := none
  arches : Option (List String) := none
  stages : Option Val := none
  repository_groups : Option (List (String × Val)) := none

/-- A product entry value: either a mapping or some other YAML value
(the malformed-entry case). -/
inductive Entry where
  | dict : ProductData → Entry
  | other : Val → Entry

/-- One group's value in the configuration document. -/
structure GroupData where
  description : Option Val := none
  products : Option (List (String × Entry)) := none

/-- The parsed configuration document; `product_groups` is `none` when
that top-level key is missing. -/
structure Config where
  product_groups : Option (List (String × GroupData)) := none

/-- Bootstrapper default for the `blacklist` argument. -/
def defaultBlacklist : List String := ["CIQ-Kernel", "sig-cloud-next"]

/-- This is the blacklist set up by `ConfigBootstrapper.__init__`:
`[item.lower() for item in blacklist or ["CIQ-Kernel", "sig-cloud-next"]]`
(a falsy — `None` or empty — argument selects the default). -/
def initBlacklist (blacklist : Option (List String)) : List String :=
  (match blacklist with
   | none => defaultBlacklist
   | some l => if l.isEmpty then defaultBlacklist else l).map pyLower

/-- Python `str.title()` (ASCII): an alphabetic character is uppercased
after a non-alphabetic one and lowercased otherwise. -/
def pyTitleAux : List Char → Bool → List Char
  | [], _ => []
  | c :: cs, prevCased =>
    if c.isAlpha then
      (if prevCased then c.toLower else c.toUpper) :: pyTitleAux cs true
    else c :: pyTitleAux cs false

/-- Python `str.title()` on a whole string. -/
def pyTitle (s : String) : String := ⟨pyTitleAux s.data false⟩

/-- Display name given to a bootstrap-created architecture:
`arch.replace("_", " ").title()`. -/
def archDisplayName (arch : String) : String :=
  pyTitle (arch.replace "_" " ")

/-- The `build_config` dictionary assembled by `create_variants`: copy
`releasever` and `stages` through when present, and the key list of
`repository_groups` when present; an empty dictionary is passed on as
`None` (`build_config if build_config else None`). -/
def mkBuildConfig (pd : ProductData) : Option (List (String × Val)) :=
  let bc : List (String × Val) := []
  let bc := bc ++ (match pd.releasever with
    | some v => [("releasever", v)]
    | none => [])
  let bc := bc ++ (match pd.stages with
    | some v => [("stages", v)]
    | none => [])
  let bc := bc ++ (match pd.repository_groups with
    | some rg => [("repository_groups", Val.list (rg.map (fun kv => Val.s kv.1)))]
    | none => [])
  if bc.isEmpty then none else some bc

/-- This is `ConfigBootstrapper.create_product_group`: on a caught
in-body failure count an error and return `None`; otherwise reuse an
existing group of that name (counting `skipped`) or insert a fresh row.
A fatal failure escapes the handler (the `Except.error` carries the
counters at that point). -/
def create_product_group (o : Oracle) (name : String)
    (description : Option String) (st : Store) (stats : Stats) :
    Except Stats (Option ProductGroupRow × Store × Stats) :=
  match o.groupFault name with
  | .fatal => .error stats
  | .caught => .ok (none, st, { stats with errors := stats.errors + 1 })
  | .ok =>
    match st.groups.find? (fun g => g.name == name) with
    | some existing => .ok (some existing, st, { stats with skipped := stats.skipped + 1 })
    | none =>
      let pg : ProductGroupRow :=
        { id := st.nextId, name := name,
          description := some (pyOrStr description
            ("Product group for " ++ name ++ " products")),
          created_at := st.clock, updated_at := st.clock }
      .ok (some pg,
        { st with groups := st.groups ++ [pg], nextId := st.nextId + 1,
                  clock := st.clock + 1 },
        { stats with product_groups_created := stats.product_groups_created + 1 })

/-- This is `ConfigBootstrapper.create_product`: find by
`(name, product_group_id)` and count `skipped`, or insert a fresh row. -/
def create_product (o : Oracle) (name : String)
    (product_group : ProductGroupRow) (version : Option String)
    (description : Option String) (st : Store) (stats : Stats) :
    Except Stats (Option ProductRow × Store × Stats) :=
  match o.productFault name with
  | .fatal => .error stats
  | .caught => .ok (none, st, { stats with errors := stats.errors + 1 })
  | .ok =>
    match st.products.find?
        (fun p => p.name == name && p.product_group_id == product_group.id) with
    | some existing => .ok (some existing, st, { stats with skipped := stats.skipped + 1 })
    | none =>
      let product : ProductRow :=
        { id := st.nextId, name := name, version := version,
          description := some (pyOrStr description ("Product " ++ name)),
          product_group_id := product_group.id,
          created_at := st.clock, updated_at := st.clock }
      .ok (some product,
        { st with products := st.products ++ [product], nextId := st.nextId + 1,
                  clock := st.clock + 1 },
        { stats with products_created := stats.products_created + 1 })

/-- This is `ConfigBootstrapper.create_variants`: for each architecture
name, find-or-create the Architecture scoped to `(product_id, name)`,
then skip (counting `skipped`) if a Variant for that architecture id
already exists, otherwise insert the Variant named
`"<product_name>-<arch>"` with the assembled `build_config`.  A caught
in-body failure counts one error and moves to the next architecture. -/
def create_variants (o : Oracle) (product : ProductRow)
    (arches : List String) (product_data : ProductData)
    (st : Store) (stats : Stats) :
    Except Stats (List VariantRow × Store × Stats) :=
  match arches with
  | [] => .ok ([], st, stats)
  | arch :: rest =>
    match o.archFault product.name arch with
    | .fatal => .error stats
    | .caught =>
      create_variants o product rest product_data st
        { stats with errors := stats.errors + 1 }
    | .ok =>
      let found := st.architectures.find?
        (fun a => a.product_id == product.id && a.name == arch)
      let architecture : ArchitectureRow :=
        match found with
        | some a => a
        | none =>
          { id := st.nextId, name := arch,
            display_name := some (archDisplayName arch),
            description := some (arch ++ " architecture for " ++ product.name),
            product_id := product.id,
            created_at := st.clock, updated_at := st.clock }
      let st1 : Store :=
        match found with
        | some _ => st
        | none =>
          { st with architectures := st.architectures ++ [architecture],
                    nextId := st.nextId + 1, clock := st.clock + 1 }
      match st1.variants.find? (fun v => v.architecture_id == architecture.id) with
      | some existing =>
        match create_variants o product rest product_data st1
            { stats with skipped := stats.skipped + 1 } with
        | .ok (vs, st', s') => .ok (existing :: vs, st', s')
        | .error s => .error s
      | none =>
        let variant : VariantRow :=
          { id := st1.nextId, name := product.name ++ "-" ++ arch,
            description := some (product.name ++ " for " ++ arch ++ " architecture"),
            build_config := mkBuildConfig product_data,
            architecture_id := architecture.id,
            created_at := st1.clock, updated_at := st1.clock }
        match create_variants o product rest product_data
            { st1 with variants := st1.variants ++ [variant],
                       nextId := st1.nextId + 1, clock := st1.clock + 1 }
            { stats with variants_created := stats.variants_created + 1 } with
        | .ok (vs, st', s') => .ok (variant :: vs, st', s')
        | .error s => .error s

/-- The product loop of `ConfigBootstrapper.process_product_groups`:
skip `just_like` entries and non-mapping entries, create the product
with `version = str(entry.get("releasever", "1.0"))`, and create its
variants for `entry.get("arches", ["x86_64"])` when that list is
truthy (nonempty). -/
def process_products (o : Oracle) (pg : ProductGroupRow)
    (entries : List (String × Entry)) (st : Store) (stats : Stats) :
    Except Stats (Store × Stats) :=
  match entries with
  | [] => .ok (st, stats)
  | (product_name, pdata) :: rest =>
    match pdata with
    | .other _ => process_products o pg rest st stats
    | .dict d =>
      if d.just_like.isSome then process_products o pg rest st stats
      else
        let version := pyStr (d.releasever.getD (Val.s "1.0"))
        match create_product o product_name pg (some version)
            (some ("Product " ++ product_name ++ " version " ++ version))
            st stats with
        | .error s => .error s
        | .ok (none, st1, s1) => process_products o pg rest st1 s1
        | .ok (some product, st1, s1) =>
          let arches := d.arches.getD ["x86_64"]
          if arches.isEmpty then process_products o pg rest st1 s1
          else
            match create_variants o product arches d st1 s1 with
            | .error s => .error s
            | .ok (_, st2, s2) => process_products o pg rest st2 s2

/-- The group loop of `ConfigBootstrapper.process_product_groups`: skip
blacklisted names (lowercased membership test), create or reuse the
group, then process its products when the `products` key is present. -/
def process_groups (o : Oracle) (blacklist : List String)
    (gs : List (String × GroupData)) (st : Store) (stats : Stats) :
    Except Stats (Store × Stats) :=
  match gs with
  | [] => .ok (st, stats)
  | (group_name, group_data) :: rest =>
    if blacklist.contains (pyLower group_name) then
      process_groups o blacklist rest st stats
    else
      match create_product_group o group_name none st stats with
      | .error s => .error s
      | .ok (none, st1, s1) => process_groups o blacklist rest st1 s1
      | .ok (some pg, st1, s1) =>
        match group_data.products with
        | none => process_groups o blacklist rest st1 s1
        | some entries =>
          match process_products o pg entries st1 s1 with
          | .error s => .error s
          | .ok (st2, s2) => process_groups o blacklist rest st2 s2

/-- This is `ConfigBootstrapper.process_product_groups`: nothing happens
when the document lacks the `product_groups` key. -/
def process_product_groups (o : Oracle) (blacklist : List String)
    (cfg : Config) (st : Store) (stats : Stats) :
    Except Stats (Store × Stats) :=
  match cfg.product_groups with
  | none => .ok (st, stats)
  | some gs => process_groups o blacklist gs st stats

/-- Outcome of a whole bootstrap run: either all session mutations are
committed, or the session is rolled back (store unchanged) and the
failure re-raised. -/
inductive BootResult where
  | committed : Store → Stats → BootResult
  | rolledBack : Store → Stats → BootResult
deriving Repr

/-- This is the session block of `ConfigBootstrapper.bootstrap`: process
the whole document, committing everything at the end; an escaping
exception rolls the session back, so the store reverts to its initial
contents. -/
def bootstrap (o : Oracle) (blacklist : List String) (cfg : Config)
    (st : Store) : BootResult :=
  match process_product_groups o blacklist cfg st initStats with
  | .ok (st', s') => .committed st' s'
  | .error s => .rolledBack st s

/-- Description of the variant `build_config` in the words of the
specification, for comparison with `mkBuildConfig` as translated from
the source: it contains exactly the entry's `releasever` value when
present, the entry's `stages` value when present, and the key list of
`repository_groups` when present, and it is left unset (`None`) when
none of the three keys is present. -/
def specBuildConfig (pd : ProductData) : Option (List (String × Val)) :=
  if pd.releasever.isNone && pd.stages.isNone && pd.repository_groups.isNone
  then none
  else some
    ((match pd.releasever with
      | some v => [("releasever", v)]
      | none => []) ++
     (match pd.stages with
      | some v => [("stages", v)]
      | none => []) ++
     (match pd.repository_groups with
      | some rg => [("repository_groups", Val.list (rg.map (fun kv => Val.s kv.1)))]
      | none => []))

/-- Test of the `just_like` skip: a product entry that is a mapping
carrying the `just_like` key. -/
def isJustLikeEntry : String × Entry → Bool
  | (_, .dict d) => d.just_like.isSome
  | (_, .other _) => false

/-- Append-only growth of the session store over a bootstrap pass: each
table of `t` extends the same table of `s`. -/
def StoreGrows (s t : Store) : Prop :=
  (∃ l, t.groups = s.groups ++ l) ∧ (∃ l, t.products = s.products ++ l) ∧
  (∃ l, t.architectures = s.architectures ++ l) ∧
  (∃ l, t.variants = s.variants ++ l)

/-- Counter update for a run that only skips: add `n` to `skipped`. -/
def addSkipped (stats : Stats) (n : Nat) : Stats :=
  { stats with skipped := stats.skipped + n }

/-- Test that a group of the configuration is not blacklisted. -/
def groupKept (bl : List String) (g : String × GroupData) : Bool :=
  !(bl.contains (pyLower g.1))

/-- Test that a product entry is a mapping without `just_like` (the
entries the engine actually processes). -/
def entryWellFormed : String × Entry → Bool
  | (_, .dict d) => d.just_like.isNone
  | (_, .other _) => false

/-- Number of architectures the engine walks for one entry: the length
of `entry.get("arches", ["x86_64"])` for a processed entry, 0 for a
skipped one. -/
def entryArchCount : String × Entry → Nat
  | (_, .dict d) =>
      if d.just_like.isNone then (d.arches.getD ["x86_64"]).length else 0
  | (_, .other _) => 0

/-- Number of processed product entries in one entry list. -/
def entriesProductCount (entries : List (String × Entry)) : Nat :=
  (entries.filter entryWellFormed).length

/-- Number of architecture slots walked in one entry list. -/
def entriesArchCount (entries : List (String × Entry)) : Nat :=
  (entries.map entryArchCount).sum

/-- Number of non-blacklisted groups the engine processes. -/
def countGroupsProcessed (bl : List String)
    (gs : List (String × GroupData)) : Nat :=
  (gs.filter (groupKept bl)).length

/-- Number of well-formed product entries the engine processes. -/
def countProductsProcessed (bl : List String)
    (gs : List (String × GroupData)) : Nat :=
  ((gs.filter (groupKept bl)).map
    (fun g => entriesProductCount (g.2.products.getD []))).sum

/-- Number of variants the engine processes (one per listed
architecture of each processed entry). -/
def countVariantsProcessed (bl : List String)
    (gs : List (String × GroupData)) : Nat :=
  ((gs.filter (groupKept bl)).map
    (fun g => entriesArchCount (g.2.products.getD []))).sum

/-- Does some variant row point at this architecture id? -/
def variantCovered (st : Store) (aid : Nat) : Bool :=
  (st.variants.find? (fun v => v.architecture_id == aid)).isSome

/-- Is the architecture `(pid, arch)` present with a variant, so that a
second pass over it would only skip? -/
def archSaturated (st : Store) (pid : Nat) (arch : String) : Bool :=
  match st.architectures.find?
      (fun a => a.product_id == pid && a.name == arch) with
  | some a => variantCovered st a.id
  | none => false

/-- Would a second pass over this product entry (under group id `gid`)
only skip? -/
def entrySaturated (st : Store) (gid : Nat) : String × Entry → Bool
  | (pname, .dict d) =>
      if d.just_like.isSome then true
      else
        match st.products.find?
            (fun p => p.name == pname && p.product_group_id == gid) with
        | some p =>
            (d.arches.getD ["x86_64"]).all (fun arch => archSaturated st p.id arch)
        | none => false
  | (_, .other _) => true

/-- Would a second pass over this configuration group only skip? -/
def groupSaturated (st : Store) (bl : List String) :
    String × GroupData → Bool
  | (gname, gdata) =>
      if bl.contains (pyLower gname) then true
      else
        match st.groups.find? (fun g => g.name == gname) with
        | some g => (gdata.products.getD []).all (entrySaturated st g.id)
        | none => false

/-- Would a second pass over the whole configuration only skip? -/
def saturated (st : Store) (bl : List String)
    (gs : List (String × GroupData)) : Bool :=
  gs.all (groupSaturated st bl)

end Bootstrap

/-- Fault injection used by the C2 witness: group "gbad" and product
"pbad" raise caught exceptions, architecture "abad" raises a caught
exception and "afatal" an escaping one. -/
def testOracle : Bootstrap.Oracle :=
  { groupFault := fun n => if n == "gbad" then .caught else .ok,
    productFault := fun n => if n == "pbad" then .caught else .ok,
    archFault := fun _ a =>
      if a == "abad" then .caught else if a == "afatal" then .fatal else .ok }

/-- Product row used by the C2 witness scenarios. -/
def wProduct : ProductRow :=
  { id := 2, name := "p", description := none, version := none,
    product_group_id := 1, created_at := 0, updated_at := 0 }

/-- Product entry used by the C2 witness rollback scenario. -/
def wFatalPD : Bootstrap.ProductData := { arches := some ["afatal"] }

/-- Configuration used by the C2 witness rollback scenario: a single
product whose only architecture fails fatally. -/
def wFatalConfig : Bootstrap.Config :=
  { product_groups := some
      [("g", { products := some [("p", Bootstrap.Entry.dict wFatalPD)] })] }

/-- Product entry used by the C8 witness: one architecture, no
build-config fields. -/
def wC8PD : Bootstrap.ProductData := { arches := some ["x86_64"] }

/-- Configuration group list used by the C8 witness. -/
def wC8Groups : List (String × Bootstrap.GroupData) :=
  [("g", { products := some [("p", Bootstrap.Entry.dict wC8PD)] })]

/-- The variant row the C8 witness run creates. -/
def wC8Variant : VariantRow :=
  { id := 4, name := "p-x86_64",
    description := some "p for x86_64 architecture",
    build_config := none, architecture_id := 3,
    created_at := 3, updated_at := 3 }

/-- Product entry with `arches` present but empty, for the C3 analysis. -/
def c3EmptyArchesPD : Bootstrap.ProductData := { arches := some [] }

/-- Configuration with one group and one product whose `arches` is the
empty list. -/
def c3EmptyArchesGroups : List (String × Bootstrap.GroupData) :=
  [("g", { products := some [("p", Bootstrap.Entry.dict c3EmptyArchesPD)] })]

/-- Product entry with no keys at all (in particular no `arches`), for
the C3 witness. -/
def c3DefaultPD : Bootstrap.ProductData := {}

/-- Group row created first by a bootstrap run over a one-group
configuration starting from the empty store. -/
def bootPG (gname : String) : ProductGroupRow :=
  { id := 1, name := gname,
    description := some (pyOrStr none
      ("Product group for " ++ gname ++ " products")),
    created_at := 0, updated_at := 0 }

/-- Product row created next by such a run. -/
def bootProduct (pname : String) (d : Bootstrap.ProductData) : ProductRow :=
  { id := 2, name := pname,
    version := some (pyStr (d.releasever.getD (Val.s "1.0"))),
    description := some (pyOrStr
      (some ("Product " ++ pname ++ " version "
        ++ pyStr (d.releasever.getD (Val.s "1.0"))))
      ("Product " ++ pname)),
    product_group_id := 1, created_at := 1, updated_at := 1 }

/-- The session state just before variants are created in such a run. -/
def bootStore2 (gname pname : String) (d : Bootstrap.ProductData) : Store :=
  { groups := [bootPG gname], products := [bootProduct pname d],
    architectures := [], variants := [], artifacts := [],
    nextId := 3, clock := 2 }

/-- The counters just before variants are created in such a run. -/
def bootStats2 : Bootstrap.Stats :=
  { product_groups_created := 1, products_created := 1,
    variants_created := 0, skipped := 0, errors := 0 }

/-- Claim C10: for every list endpoint with a parent-id filter
(products by group, architectures by product, variants by architecture,
artifacts by variant), supplying the filter value 0 returns exactly the
unfiltered paginated list, because the `where` clause is added only when
the supplied value is truthy and `0` is falsy in Python. -/
theorem c10_zero_parent_filter_is_unfiltered (skip limit : Nat) (st : Store) :
    list_products skip limit (some 0) st = list_products skip limit none st ∧
    list_architectures skip limit (some 0) st = list_architectures skip limit none st ∧
    list_variants skip limit (some 0) st = list_variants skip limit none st ∧
    ∀ t s r, list_artifacts skip limit (some 0) t s r st =
             list_artifacts skip limit none t s r st := by
  refine ⟨rfl, rfl, rfl, fun t s r => rfl⟩

/-- Claim C4: creating a Product, Architecture, Variant, or Artifact
whose declared parent id matches no row fails with the 400 bad-reference
`HTTPException` (distinct from the 404 not-found status), and the store
is returned unchanged: no partial row persists. -/
theorem c4_create_bad_parent_rejected :
    (400 : Nat) ≠ 404 ∧
    (∀ (st : Store) (p : Api.ProductCreate),
      st.groups.find? (fun g => g.id == p.product_group_id) = none →
      Api.create_product p st = (.error ⟨400, "Product group not found"⟩, st)) ∧
    (∀ (st : Store) (a : Api.ArchitectureCreate),
      st.products.find? (fun q => q.id == a.product_id) = none →
      Api.create_architecture a st = (.error ⟨400, "Product not found"⟩, st)) ∧
    (∀ (st : Store) (v : Api.VariantCreate),
      st.architectures.find? (fun a => a.id == v.architecture_id) = none →
      Api.create_variant v st = (.error ⟨400, "Architecture not found"⟩, st)) ∧
    (∀ (st : Store) (a : Api.ArtifactCreate),
      st.variants.find? (fun v => v.id == a.variant_id) = none →
      Api.create_artifact a st = (.error ⟨400, "Variant not found"⟩, st)) := by
  refine ⟨by decide, ?_, ?_, ?_, ?_⟩ <;> intro st x h <;>
    simp [Api.create_product, Api.create_architecture, Api.create_variant,
          Api.create_artifact, h]

/-- Witness for C4: on the empty store every parent reference is bad,
and each of the four creates fails with the 400 error, store unchanged. -/
theorem c4_witness :
    Api.create_product { name := "p", product_group_id := 5 } emptyStore
      = (.error ⟨400, "Product group not found"⟩, emptyStore) ∧
    Api.create_architecture { name := "x86_64", product_id := 5 } emptyStore
      = (.error ⟨400, "Product not found"⟩, emptyStore) ∧
    Api.create_variant { name := "v", architecture_id := 5 } emptyStore
      = (.error ⟨400, "Architecture not found"⟩, emptyStore) ∧
    Api.create_artifact { name := "a", artifact_type := .base_image, variant_id := 5 } emptyStore
      = (.error ⟨400, "Variant not found"⟩, emptyStore) :=
  ⟨c4_create_bad_parent_rejected.2.1 emptyStore _ rfl,
   c4_create_bad_parent_rejected.2.2.1 emptyStore _ rfl,
   c4_create_bad_parent_rejected.2.2.2.1 emptyStore _ rfl,
   c4_create_bad_parent_rejected.2.2.2.2 emptyStore _ rfl⟩

/-- Claim C5: creating a ProductGroup whose name (case-sensitively)
matches an existing group fails with the Conflict error whose detail
names the conflicting value, a fresh name succeeds and appends one row;
updating re-validates uniqueness excluding the group itself, so a patch
carrying the group's own current name succeeds while a patch to a name
some group already carries fails with the Conflict error. -/
theorem c5_product_group_name_uniqueness :
    (∀ (st : Store) (pgc : Api.ProductGroupCreate) (g : ProductGroupRow),
       st.groups.find? (fun h => h.name == pgc.name) = some g →
       Api.create_product_group pgc st
         = (.error ⟨400, conflictDetail pgc.name⟩, st)) ∧
    (∀ (st : Store) (pgc : Api.ProductGroupCreate),
       st.groups.find? (fun h => h.name == pgc.name) = none →
       ∃ r st', Api.create_product_group pgc st = (.ok r, st') ∧
         r.name = pgc.name ∧ st'.groups = st.groups ++ [r]) ∧
    (∀ (st : Store) (gid : Nat) (upd : Api.ProductGroupUpdate) (g : ProductGroupRow),
       st.groups.find? (fun h => h.id == gid) = some g →
       upd.name = some g.name →
       ∃ r st', Api.update_product_group gid upd st = (.ok r, st') ∧
         r.name = g.name) ∧
    (∀ (st : Store) (gid : Nat) (upd : Api.ProductGroupUpdate)
       (g : ProductGroupRow) (n : String),
       st.groups.find? (fun h => h.id == gid) = some g →
       upd.name = some n → n ≠ g.name →
       (st.groups.find? (fun h => h.name == n)).isSome = true →
       Api.update_product_group gid upd st
         = (.error ⟨400, conflictDetail n⟩, st)) := by
  refine ⟨?_, ?_, ?_, ?_⟩
  · intro st pgc g h
    simp [Api.create_product_group, h]
  · intro st pgc h
    simp only [Api.create_product_group, h]
    exact ⟨_, _, rfl, rfl, rfl⟩
  · intro st gid upd g hfind hname
    simp only [Api.update_product_group, hfind, hname, bne_self_eq_false,
      Bool.false_and, Bool.false_eq_true, if_false, Option.getD_some]
    exact ⟨_, _, rfl, rfl⟩
  · intro st gid upd g n hfind hname hne hconf
    simp [Api.update_product_group, hfind, hname, bne_iff_ne, hne, hconf]

/-- Witness for C5, on a store holding groups named "a" and "b":
creating another "a" conflicts, creating "c" succeeds, patching group 1
with its own name "a" succeeds, and patching it to "b" conflicts. -/
theorem c5_witness :
    (Api.create_product_group { name := "a" }
        { emptyStore with
            groups := [{ id := 1, name := "a", description := none,
                         created_at := 0, updated_at := 0 },
                       { id := 2, name := "b", description := none,
                         created_at := 0, updated_at := 0 }] }
      = (.error ⟨400, conflictDetail "a"⟩,
         { emptyStore with
             groups := [{ id := 1, name := "a", description := none,
                          created_at := 0, updated_at := 0 },
                        { id := 2, name := "b", description := none,
                          created_at := 0, updated_at := 0 }] })) ∧
    (∃ r st', Api.create_product_group { name := "c" }
        { emptyStore with
            groups := [{ id := 1, name := "a", description := none,
                         created_at := 0, updated_at := 0 }] }
      = (.ok r, st') ∧ r.name = "c" ∧
      st'.groups = [{ id := 1, name := "a", description := none,
                      created_at := 0, updated_at := 0 }] ++ [r]) ∧
    (∃ r st', Api.update_product_group 1 { name := some "a" }
        { emptyStore with
            groups := [{ id := 1, name := "a", description := none,
                         created_at := 0, updated_at := 0 },
                       { id := 2, name := "b", description := none,
                         created_at := 0, updated_at := 0 }] }
      = (.ok r, st') ∧ r.name = "a") ∧
    (Api.update_product_group 1 { name := some "b" }
        { emptyStore with
            groups := [{ id := 1, name := "a", description := none,
                         created_at := 0, updated_at := 0 },
                       { id := 2, name := "b", description := none,
                         created_at := 0, updated_at := 0 }] }
      = (.error ⟨400, conflictDetail "b"⟩,
         { emptyStore with
             groups := [{ id := 1, name := "a", description := none,
                          created_at := 0, updated_at := 0 },
                        { id := 2, name := "b", description := none,
                          created_at := 0, updated_at := 0 }] })) :=
  ⟨c5_product_group_name_uniqueness.1 _ _ _ rfl,
   c5_product_group_name_uniqueness.2.1 _ _ rfl,
   c5_product_group_name_uniqueness.2.2.1 _ 1 _
     { id := 1, name := "a", description := none,
       created_at := 0, updated_at := 0 } rfl rfl,
   c5_product_group_name_uniqueness.2.2.2 _ 1 _
     { id := 1, name := "a", description := none,
       created_at := 0, updated_at := 0 } "b" rfl rfl (by decide) rfl⟩

/-- Membership in a group-by-with-counts table: a pair `(t, n)` appears
exactly when `n` is the (positive) number of rows whose key is `t`. -/
theorem groupByCount_mem {β : Type} [DecidableEq β] (rows : List ArtifactRow)
    (f : ArtifactRow → β) (t : β) (n : Nat) :
    ((t, n) ∈ ((rows.map f).dedup).map
        (fun x => (x, rows.countP (fun a => f a == x)))) ↔
    (n = rows.countP (fun a => f a == t) ∧ 0 < n) := by
  constructor
  · intro h
    simp only [List.mem_map, List.mem_dedup] at h
    obtain ⟨x, hx, hpair⟩ := h
    obtain ⟨a, ha, hfa⟩ := hx
    obtain ⟨hxt, hcnt⟩ := Prod.mk.injEq .. ▸ hpair
    subst hxt
    subst hcnt
    exact ⟨rfl, List.countP_pos.mpr ⟨a, ha, by simp [hfa]⟩⟩
  · rintro ⟨hn, hpos⟩
    obtain ⟨a, ha, hat⟩ := List.countP_pos.mp (hn ▸ hpos)
    refine List.mem_map.mpr ⟨t, List.mem_dedup.mpr ?_, by rw [hn]⟩
    exact List.mem_map.mpr ⟨a, ha, by simpa using hat⟩

/-- Sum of the present sizes equals the sum with missing sizes read as 0. -/
theorem sum_filterMap_sizes (l : List ArtifactRow) :
    (l.filterMap (fun a => a.size_bytes)).sum
      = (l.map (fun a => a.size_bytes.getD 0)).sum := by
  induction l with
  | nil => rfl
  | cons a rest ih =>
    cases h : a.size_bytes <;>
      simp [List.filterMap_cons, h, ih]

/-- Evaluation of the SQL aggregate with the `or 0` coercion is the plain sum. -/
theorem pyOrZero_sqlSum (l : List Int) : Api.pyOrZero (Api.sqlSum l) = l.sum := by
  cases l with
  | nil => rfl
  | cons x rest =>
    simp only [Api.sqlSum, Api.pyOrZero]
    split
    · next h => simp at h; exact h.symm
    · rfl

/-- Claim C9: the artifact stats operation returns empty groupings and a
zero total over a store with no artifacts; in general `by_type` and
`by_status` hold exactly the (positive) counts of rows per present value,
and `total_size_bytes` is the sum of `size_bytes` with missing sizes
contributing 0. -/
theorem c9_artifact_stats_exact :
    (∀ st : Store, st.artifacts = [] →
       Api.get_artifact_stats st
         = { by_type := [], by_status := [], total_size_bytes := 0 }) ∧
    (∀ (st : Store) (t : ArtifactType) (n : Nat),
       ((t, n) ∈ (Api.get_artifact_stats st).by_type ↔
        (n = st.artifacts.countP (fun a => a.artifact_type == t) ∧ 0 < n))) ∧
    (∀ (st : Store) (s : ArtifactStatus) (n : Nat),
       ((s, n) ∈ (Api.get_artifact_stats st).by_status ↔
        (n = st.artifacts.countP (fun a => a.status == s) ∧ 0 < n))) ∧
    (∀ st : Store, (Api.get_artifact_stats st).total_size_bytes =
       (st.artifacts.map (fun a => a.size_bytes.getD 0)).sum) := by
  refine ⟨?_, ?_, ?_, ?_⟩
  · intro st h
    simp [Api.get_artifact_stats, h, Api.sqlSum, Api.pyOrZero]
  · intro st t n
    exact groupByCount_mem st.artifacts (fun a => a.artifact_type) t n
  · intro st s n
    exact groupByCount_mem st.artifacts (fun a => a.status) s n
  · intro st
    simp only [Api.get_artifact_stats]
    rw [pyOrZero_sqlSum, sum_filterMap_sizes]

/-- Witness for C9: the empty store yields the empty stats document. -/
theorem c9_witness :
    Api.get_artifact_stats emptyStore
      = { by_type := [], by_status := [], total_size_bytes := 0 } :=
  c9_artifact_stats_exact.1 emptyStore rfl


/-- Claim C6: the bootstrapper's default blacklist lowers to
`{"ciq-kernel", "sig-cloud-next"}`, and a run over any configuration is
identical (same resulting store, same counters, same failure behaviour)
to a run over the configuration with every blacklisted group — matched
case-insensitively on the lowercased name — removed: nothing at all is
created for a blacklisted group or anything under it. -/
theorem c6_blacklisted_groups_contribute_nothing :
    Bootstrap.initBlacklist none = ["ciq-kernel", "sig-cloud-next"] ∧
    ∀ (o : Bootstrap.Oracle) (bl : List String)
      (gs : List (String × Bootstrap.GroupData)) (st : Store)
      (stats : Bootstrap.Stats),
      Bootstrap.process_groups o bl gs st stats =
      Bootstrap.process_groups o bl
        (gs.filter (fun g => !(bl.contains (pyLower g.1)))) st stats := by
  refine ⟨by decide, ?_⟩
  intro o bl gs
  induction gs with
  | nil => intro st stats; rfl
  | cons g rest ih =>
    intro st stats
    obtain ⟨gname, gdata⟩ := g
    cases hc : bl.contains (pyLower gname) with
    | true =>
      simp only [Bootstrap.process_groups, hc, if_true, List.filter_cons,
        Bool.not_true, Bool.false_eq_true, if_false]
      exact ih st stats
    | false =>
      simp only [Bootstrap.process_groups, hc, Bool.false_eq_true, if_false,
        List.filter_cons, Bool.not_false, if_true]
      cases hcr : Bootstrap.create_product_group o gname none st stats with
      | error s => simp [Bootstrap.process_groups, hc, hcr]
      | ok res =>
        obtain ⟨popt, st1, s1⟩ := res
        cases popt with
        | none => simp only [Bootstrap.process_groups, hc, Bool.false_eq_true,
            if_false, hcr]; exact ih st1 s1
        | some pg =>
          cases hp : gdata.products with
          | none => simp only [Bootstrap.process_groups, hc, Bool.false_eq_true,
              if_false, hcr, hp]; exact ih st1 s1
          | some entries =>
            cases hpp : Bootstrap.process_products o pg entries st1 s1 with
            | error s => simp [Bootstrap.process_groups, hc, hcr, hp, hpp]
            | ok r2 =>
              obtain ⟨st2, s2⟩ := r2
              simp only [Bootstrap.process_groups, hc, Bool.false_eq_true,
                if_false, hcr, hp, hpp]
              exact ih st2 s2

/-- Claim C7: a run of the product loop over any entry list is identical
(store, counters and failure behaviour alike) to the run with every
mapping entry that carries a `just_like` key removed: such entries
create no Product, Architecture or Variant, and processing continues
with the next entry. -/
theorem c7_just_like_entries_contribute_nothing :
    ∀ (o : Bootstrap.Oracle) (pg : ProductGroupRow)
      (entries : List (String × Bootstrap.Entry)) (st : Store)
      (stats : Bootstrap.Stats),
      Bootstrap.process_products o pg entries st stats =
      Bootstrap.process_products o pg
        (entries.filter (fun e => !(Bootstrap.isJustLikeEntry e))) st stats := by
  intro o pg entries
  induction entries with
  | nil => intro st stats; rfl
  | cons e rest ih =>
    intro st stats
    obtain ⟨pname, pdata⟩ := e
    cases pdata with
    | other v =>
      simp only [Bootstrap.process_products, List.filter_cons,
        Bootstrap.isJustLikeEntry, Bool.not_false, if_true]
      exact ih st stats
    | dict d =>
      cases hj : d.just_like with
      | some jv =>
        simp only [Bootstrap.process_products, hj, Option.isSome_some, if_true,
          List.filter_cons, Bootstrap.isJustLikeEntry, Bool.not_true,
          Bool.false_eq_true, if_false]
        exact ih st stats
      | none =>
        simp only [Bootstrap.process_products, hj, Option.isSome_none,
          Bool.false_eq_true, if_false, List.filter_cons,
          Bootstrap.isJustLikeEntry, Bool.not_false, if_true]
        cases hcp : Bootstrap.create_product o pname pg
            (some (pyStr (d.releasever.getD (Val.s "1.0"))))
            (some ("Product " ++ pname ++ " version "
              ++ pyStr (d.releasever.getD (Val.s "1.0")))) st stats with
        | error s => simp [hcp]
        | ok res =>
          obtain ⟨popt, st1, s1⟩ := res
          cases popt with
          | none => simp only [hcp]; exact ih st1 s1
          | some product =>
            simp only [hcp]
            split
            · exact ih st1 s1
            · cases hcv : Bootstrap.create_variants o product
                  (d.arches.getD ["x86_64"]) d st1 s1 with
              | error s => simp [hcv]
              | ok r2 =>
                obtain ⟨vs, st2, s2⟩ := r2
                simp only [hcv]
                exact ih st2 s2

/-- Claim C2: a failure caught inside one item's handler (one product
group, one product, or one variant/architecture item) increments the
`errors` counter and processing continues with the sibling items from
the same session state; a failure escaping the per-item catch boundary
turns the whole pass into an error, and a pass that ends in an error
makes `bootstrap` roll the session back, so the committed store is the
initial one. -/
theorem c2_per_item_errors_and_rollback :
    (∀ (o : Bootstrap.Oracle) (bl : List String) (gname : String)
       (gdata : Bootstrap.GroupData) (rest : List (String × Bootstrap.GroupData))
       (st : Store) (stats : Bootstrap.Stats),
       bl.contains (pyLower gname) = false →
       o.groupFault gname = .caught →
       Bootstrap.process_groups o bl ((gname, gdata) :: rest) st stats =
       Bootstrap.process_groups o bl rest st
         { stats with errors := stats.errors + 1 }) ∧
    (∀ (o : Bootstrap.Oracle) (pg : ProductGroupRow) (pname : String)
       (d : Bootstrap.ProductData) (rest : List (String × Bootstrap.Entry))
       (st : Store) (stats : Bootstrap.Stats),
       d.just_like = none →
       o.productFault pname = .caught →
       Bootstrap.process_products o pg ((pname, .dict d) :: rest) st stats =
       Bootstrap.process_products o pg rest st
         { stats with errors := stats.errors + 1 }) ∧
    (∀ (o : Bootstrap.Oracle) (product : ProductRow) (arch : String)
       (rest : List String) (pd : Bootstrap.ProductData)
       (st : Store) (stats : Bootstrap.Stats),
       o.archFault product.name arch = .caught →
       Bootstrap.create_variants o product (arch :: rest) pd st stats =
       Bootstrap.create_variants o product rest pd st
         { stats with errors := stats.errors + 1 }) ∧
    (∀ (o : Bootstrap.Oracle) (product : ProductRow) (arch : String)
       (rest : List String) (pd : Bootstrap.ProductData)
       (st : Store) (stats : Bootstrap.Stats),
       o.archFault product.name arch = .fatal →
       Bootstrap.create_variants o product (arch :: rest) pd st stats
         = .error stats) ∧
    (∀ (o : Bootstrap.Oracle) (bl : List String) (cfg : Bootstrap.Config)
       (st : Store) (s : Bootstrap.Stats),
       Bootstrap.process_product_groups o bl cfg st Bootstrap.initStats
         = .error s →
       Bootstrap.bootstrap o bl cfg st = .rolledBack st s) := by
  refine ⟨?_, ?_, ?_, ?_, ?_⟩
  · intro o bl gname gdata rest st stats hbl hf
    simp only [Bootstrap.process_groups, hbl, Bool.false_eq_true, if_false,
      Bootstrap.create_product_group, hf]
  · intro o pg pname d rest st stats hjl hf
    simp [Bootstrap.process_products, Bootstrap.create_product, hjl, hf]
  · intro o product arch rest pd st stats hf
    simp [Bootstrap.create_variants, hf]
  · intro o product arch rest pd st stats hf
    simp [Bootstrap.create_variants, hf]
  · intro o bl cfg st s h
    simp [Bootstrap.bootstrap, h]


/-- Witness for C2: a caught failure at each level continues with the
siblings and counts one error; the fatal architecture aborts the pass;
and the aborted run rolls back to the initial (empty) store with the
counters accumulated before the failure. -/
theorem c2_witness :
    (Bootstrap.process_groups testOracle [] [("gbad", {})] emptyStore
        Bootstrap.initStats =
      Bootstrap.process_groups testOracle [] [] emptyStore
        { Bootstrap.initStats with errors := Bootstrap.initStats.errors + 1 }) ∧
    (Bootstrap.process_products testOracle
        { id := 1, name := "g", description := none,
          created_at := 0, updated_at := 0 }
        [("pbad", .dict {})] emptyStore Bootstrap.initStats =
      Bootstrap.process_products testOracle
        { id := 1, name := "g", description := none,
          created_at := 0, updated_at := 0 }
        [] emptyStore
        { Bootstrap.initStats with errors := Bootstrap.initStats.errors + 1 }) ∧
    (Bootstrap.create_variants testOracle wProduct ["abad"] {} emptyStore
        Bootstrap.initStats =
      Bootstrap.create_variants testOracle wProduct [] {} emptyStore
        { Bootstrap.initStats with errors := Bootstrap.initStats.errors + 1 }) ∧
    (Bootstrap.create_variants testOracle wProduct ["afatal"] {} emptyStore
        Bootstrap.initStats = .error Bootstrap.initStats) ∧
    (Bootstrap.bootstrap testOracle [] wFatalConfig emptyStore =
      .rolledBack emptyStore
        { product_groups_created := 1, products_created := 1,
          variants_created := 0, skipped := 0, errors := 0 }) :=
  ⟨c2_per_item_errors_and_rollback.1 testOracle [] "gbad" {} [] emptyStore
      Bootstrap.initStats rfl rfl,
   c2_per_item_errors_and_rollback.2.1 testOracle
      { id := 1, name := "g", description := none,
        created_at := 0, updated_at := 0 } "pbad" {} [] emptyStore
      Bootstrap.initStats rfl rfl,
   c2_per_item_errors_and_rollback.2.2.1 testOracle wProduct "abad" [] {}
      emptyStore Bootstrap.initStats rfl,
   c2_per_item_errors_and_rollback.2.2.2.1 testOracle wProduct "afatal" [] {}
      emptyStore Bootstrap.initStats rfl,
   c2_per_item_errors_and_rollback.2.2.2.2 testOracle [] wFatalConfig
      emptyStore _ rfl⟩

/-- The `build_config` assembled by the source agrees with the
specification's description for every product entry. -/
theorem mkBuildConfig_eq_spec (pd : Bootstrap.ProductData) :
    Bootstrap.mkBuildConfig pd = Bootstrap.specBuildConfig pd := by
  unfold Bootstrap.mkBuildConfig Bootstrap.specBuildConfig
  cases hr : pd.releasever <;> cases hs : pd.stages <;>
    cases hg : pd.repository_groups <;> simp

/-- The group handler never touches the variants table. -/
theorem create_product_group_ok_variants {o : Bootstrap.Oracle} {name : String}
    {desc : Option String} {st : Store} {stats : Bootstrap.Stats}
    {popt : Option ProductGroupRow} {st1 : Store} {s1 : Bootstrap.Stats}
    (h : Bootstrap.create_product_group o name desc st stats
          = .ok (popt, st1, s1)) :
    st1.variants = st.variants := by
  unfold Bootstrap.create_product_group at h
  cases hf : o.groupFault name
  case fatal => rw [hf] at h; exact absurd h (by simp)
  case caught =>
    simp only [hf, Except.ok.injEq, Prod.mk.injEq] at h
    rcases h with ⟨h1, h2, h3⟩
    subst h2
    rfl
  case ok =>
    simp only [hf] at h
    cases hfind : st.groups.find? (fun g => g.name == name) <;>
        simp only [hfind, Except.ok.injEq, Prod.mk.injEq] at h <;>
      · rcases h with ⟨h1, h2, h3⟩
        subst h2
        rfl

/-- The product handler never touches the variants table, and a product
it hands back carries the requested name. -/
theorem create_product_ok_facts {o : Bootstrap.Oracle} {name : String}
    {pg : ProductGroupRow} {version desc : Option String} {st : Store}
    {stats : Bootstrap.Stats} {popt : Option ProductRow} {st1 : Store}
    {s1 : Bootstrap.Stats}
    (h : Bootstrap.create_product o name pg version desc st stats
          = .ok (popt, st1, s1)) :
    st1.variants = st.variants ∧ st1.architectures = st.architectures ∧
      ∀ p, popt = some p → p.name = name := by
  unfold Bootstrap.create_product at h
  cases hf : o.productFault name
  case fatal => rw [hf] at h; exact absurd h (by simp)
  case caught =>
    simp only [hf, Except.ok.injEq, Prod.mk.injEq] at h
    rcases h with ⟨h1, h2, h3⟩
    subst h1; subst h2
    exact ⟨rfl, rfl, fun p hp => absurd hp (by simp)⟩
  case ok =>
    simp only [hf] at h
    cases hfind : st.products.find?
        (fun p => p.name == name && p.product_group_id == pg.id)
    case some p0 =>
      simp only [hfind, Except.ok.injEq, Prod.mk.injEq] at h
      rcases h with ⟨h1, h2, h3⟩
      subst h1; subst h2
      refine ⟨rfl, rfl, fun p hp => ?_⟩
      obtain rfl : p0 = p := by simpa using hp
      have hpred := List.find?_some hfind
      simp only [Bool.and_eq_true, beq_iff_eq] at hpred
      exact hpred.1
    case none =>
      simp only [hfind, Except.ok.injEq, Prod.mk.injEq] at h
      rcases h with ⟨h1, h2, h3⟩
      subst h1; subst h2
      exact ⟨rfl, rfl, fun p hp => by
        obtain rfl : _ = p := by simpa using hp
        rfl⟩

/-- Every variant row added by `create_variants` is named
`"<product_name>-<arch>"` for one of the listed architectures and
carries the assembled `build_config`. -/
theorem create_variants_new_shape {o : Bootstrap.Oracle} {product : ProductRow}
    {pd : Bootstrap.ProductData} :
    ∀ {l : List String} {st : Store} {stats : Bootstrap.Stats}
      {vs : List VariantRow} {st1 : Store} {s1 : Bootstrap.Stats},
      Bootstrap.create_variants o product l pd st stats = .ok (vs, st1, s1) →
      ∀ v ∈ st1.variants, v ∉ st.variants →
        ∃ arch ∈ l, v.name = product.name ++ "-" ++ arch ∧
          v.build_config = Bootstrap.mkBuildConfig pd := by
  intro l
  induction l with
  | nil =>
    intro st stats vs st1 s1 h v hv hnv
    rw [Bootstrap.create_variants] at h
    simp only [Except.ok.injEq, Prod.mk.injEq] at h
    rcases h with ⟨h1, h2, h3⟩
    subst h2
    exact absurd hv hnv
  | cons arch rest ih =>
    intro st stats vs st1 s1 h v hv hnv
    rw [Bootstrap.create_variants] at h
    cases hf : o.archFault product.name arch
    case fatal => rw [hf] at h; exact absurd h (by simp)
    case caught =>
      simp only [hf] at h
      obtain ⟨a, ha, hprop⟩ := ih h v hv hnv
      exact ⟨a, List.mem_cons_of_mem _ ha, hprop⟩
    case ok =>
      simp only [hf] at h
      cases hfind : st.architectures.find?
          (fun a => a.product_id == product.id && a.name == arch)
      case some a0 =>
        simp only [hfind] at h
        cases hvf : st.variants.find? (fun w => w.architecture_id == a0.id)
        case some v0 =>
          simp only [hvf] at h
          cases hrec : Bootstrap.create_variants o product rest pd st
              { stats with skipped := stats.skipped + 1 }
          case error s => rw [hrec] at h; exact absurd h (by simp)
          case ok r =>
            obtain ⟨vs', st', s'⟩ := r
            rw [hrec] at h
            simp only [Except.ok.injEq, Prod.mk.injEq] at h
            rcases h with ⟨h1, h2, h3⟩
            subst h2
            obtain ⟨a, ha, hprop⟩ := ih hrec v hv hnv
            exact ⟨a, List.mem_cons_of_mem _ ha, hprop⟩
        case none =>
          simp only [hvf] at h
          cases hrec : Bootstrap.create_variants o product rest pd
              { st with
                  variants := st.variants ++
                    [{ id := st.nextId,
                       name := product.name ++ "-" ++ arch,
                       description := some (product.name ++ " for " ++ arch
                         ++ " architecture"),
                       build_config := Bootstrap.mkBuildConfig pd,
                       architecture_id := a0.id,
                       created_at := st.clock, updated_at := st.clock }],
                  nextId := st.nextId + 1, clock := st.clock + 1 }
              { stats with variants_created := stats.variants_created + 1 }
          case error s => rw [hrec] at h; exact absurd h (by simp)
          case ok r =>
            obtain ⟨vs', st', s'⟩ := r
            rw [hrec] at h
            simp only [Except.ok.injEq, Prod.mk.injEq] at h
            rcases h with ⟨h1, h2, h3⟩
            subst h2
            by_cases hmid : v ∈ st.variants ++
                [{ id := st.nextId,
                   name := product.name ++ "-" ++ arch,
                   description := some (product.name ++ " for " ++ arch
                     ++ " architecture"),
                   build_config := Bootstrap.mkBuildConfig pd,
                   architecture_id := a0.id,
                   created_at := st.clock, updated_at := st.clock }]
            · rcases List.mem_append.mp hmid with hold | hnew
              · exact absurd hold hnv
              · refine ⟨arch, List.mem_cons_self _ _, ?_, ?_⟩
                · rw [List.mem_singleton.mp hnew]
                · rw [List.mem_singleton.mp hnew]
            · obtain ⟨a, ha, hprop⟩ := ih hrec v hv (by simpa using hmid)
              exact ⟨a, List.mem_cons_of_mem _ ha, hprop⟩
      case none =>
        simp only [hfind] at h
        cases hvf : st.variants.find? (fun w => w.architecture_id == st.nextId)
        case some v0 =>
          simp only [hvf] at h
          cases hrec : Bootstrap.create_variants o product rest pd
              { st with
                  architectures := st.architectures ++
                    [{ id := st.nextId, name := arch,
                       display_name := some (Bootstrap.archDisplayName arch),
                       description := some (arch ++ " architecture for "
                         ++ product.name),
                       product_id := product.id,
                       created_at := st.clock, updated_at := st.clock }],
                  nextId := st.nextId + 1, clock := st.clock + 1 }
              { stats with skipped := stats.skipped + 1 }
          case error s => rw [hrec] at h; exact absurd h (by simp)
          case ok r =>
            obtain ⟨vs', st', s'⟩ := r
            rw [hrec] at h
            simp only [Except.ok.injEq, Prod.mk.injEq] at h
            rcases h with ⟨h1, h2, h3⟩
            subst h2
            obtain ⟨a, ha, hprop⟩ := ih hrec v hv hnv
            exact ⟨a, List.mem_cons_of_mem _ ha, hprop⟩
        case none =>
          simp only [hvf] at h
          cases hrec : Bootstrap.create_variants o product rest pd
              { st with
                  architectures := st.architectures ++
                    [{ id := st.nextId, name := arch,
                       display_name := some (Bootstrap.archDisplayName arch),
                       description := some (arch ++ " architecture for "
                         ++ product.name),
                       product_id := product.id,
                       created_at := st.clock, updated_at := st.clock }],
                  variants := st.variants ++
                    [{ id := st.nextId + 1,
                       name := product.name ++ "-" ++ arch,
                       description := some (product.name ++ " for " ++ arch
                         ++ " architecture"),
                       build_config := Bootstrap.mkBuildConfig pd,
                       architecture_id := st.nextId,
                       created_at := st.clock + 1, updated_at := st.clock + 1 }],
                  nextId := st.nextId + 1 + 1, clock := st.clock + 1 + 1 }
              { stats with variants_created := stats.variants_created + 1 }
          case error s => rw [hrec] at h; exact absurd h (by simp)
          case ok r =>
            obtain ⟨vs', st', s'⟩ := r
            rw [hrec] at h
            simp only [Except.ok.injEq, Prod.mk.injEq] at h
            rcases h with ⟨h1, h2, h3⟩
            subst h2
            by_cases hmid : v ∈ st.variants ++
                [{ id := st.nextId + 1,
                   name := product.name ++ "-" ++ arch,
                   description := some (product.name ++ " for " ++ arch
                     ++ " architecture"),
                   build_config := Bootstrap.mkBuildConfig pd,
                   architecture_id := st.nextId,
                   created_at := st.clock + 1, updated_at := st.clock + 1 }]
            · rcases List.mem_append.mp hmid with hold | hnew
              · exact absurd hold hnv
              · refine ⟨arch, List.mem_cons_self _ _, ?_, ?_⟩
                · rw [List.mem_singleton.mp hnew]
                · rw [List.mem_singleton.mp hnew]
            · obtain ⟨a, ha, hprop⟩ := ih hrec v hv (by simpa using hmid)
              exact ⟨a, List.mem_cons_of_mem _ ha, hprop⟩

/-- Every variant row added by the product loop comes from one
well-formed entry of the list, with that entry's naming and config. -/
theorem process_products_new_shape {o : Bootstrap.Oracle}
    {pg : ProductGroupRow} :
    ∀ {entries : List (String × Bootstrap.Entry)} {st : Store}
      {stats : Bootstrap.Stats} {st1 : Store} {s1 : Bootstrap.Stats},
      Bootstrap.process_products o pg entries st stats = .ok (st1, s1) →
      ∀ v ∈ st1.variants, v ∉ st.variants →
        ∃ pname d arch, (pname, Bootstrap.Entry.dict d) ∈ entries ∧
          arch ∈ d.arches.getD ["x86_64"] ∧
          v.name = pname ++ "-" ++ arch ∧
          v.build_config = Bootstrap.mkBuildConfig d := by
  intro entries
  induction entries with
  | nil =>
    intro st stats st1 s1 h v hv hnv
    rw [Bootstrap.process_products] at h
    simp only [Except.ok.injEq, Prod.mk.injEq] at h
    rcases h with ⟨h1, h2⟩
    subst h1
    exact absurd hv hnv
  | cons e rest ih =>
    intro st stats st1 s1 h v hv hnv
    obtain ⟨pname, pdata⟩ := e
    cases pdata with
    | other val =>
      simp only [Bootstrap.process_products] at h
      obtain ⟨pn, d, a, hmem, hrest⟩ := ih h v hv hnv
      exact ⟨pn, d, a, List.mem_cons_of_mem _ hmem, hrest⟩
    | dict d =>
      cases hj : d.just_like with
      | some jv =>
        simp only [Bootstrap.process_products, hj, Option.isSome_some,
          if_true] at h
        obtain ⟨pn, d', a, hmem, hrest⟩ := ih h v hv hnv
        exact ⟨pn, d', a, List.mem_cons_of_mem _ hmem, hrest⟩
      | none =>
        simp only [Bootstrap.process_products, hj, Option.isSome_none,
          Bool.false_eq_true, if_false] at h
        cases hcp : Bootstrap.create_product o pname pg
            (some (pyStr (d.releasever.getD (Val.s "1.0"))))
            (some ("Product " ++ pname ++ " version "
              ++ pyStr (d.releasever.getD (Val.s "1.0")))) st stats
        case error s => rw [hcp] at h; exact absurd h (by simp)
        case ok res =>
          obtain ⟨popt, stA, sA⟩ := res
          obtain ⟨hvarA, harchA, hnameA⟩ := create_product_ok_facts hcp
          cases popt with
          | none =>
            simp only [hcp] at h
            obtain ⟨pn, d', a, hmem, hrest⟩ :=
              ih h v hv (by rw [hvarA]; exact hnv)
            exact ⟨pn, d', a, List.mem_cons_of_mem _ hmem, hrest⟩
          | some product =>
            simp only [hcp] at h
            cases hae : (d.arches.getD ["x86_64"]).isEmpty
            case true =>
              simp only [hae, if_true] at h
              obtain ⟨pn, d', a, hmem, hrest⟩ :=
                ih h v hv (by rw [hvarA]; exact hnv)
              exact ⟨pn, d', a, List.mem_cons_of_mem _ hmem, hrest⟩
            case false =>
              simp only [hae, Bool.false_eq_true, if_false] at h
              cases hcv : Bootstrap.create_variants o product
                  (d.arches.getD ["x86_64"]) d stA sA
              case error s => rw [hcv] at h; exact absurd h (by simp)
              case ok r =>
                obtain ⟨vs, stB, sB⟩ := r
                rw [hcv] at h
                by_cases hvB : v ∈ stB.variants
                · obtain ⟨a, ha, hname, hbc⟩ :=
                    create_variants_new_shape hcv v hvB
                      (by rw [hvarA]; exact hnv)
                  refine ⟨pname, d, a, List.mem_cons_self _ _, ha, ?_, hbc⟩
                  rw [hname, hnameA product rfl]
                · obtain ⟨pn, d', a, hmem, hrest⟩ := ih h v hv hvB
                  exact ⟨pn, d', a, List.mem_cons_of_mem _ hmem, hrest⟩

/-- Every variant row added by the group loop comes from one group and
one well-formed product entry of the configuration. -/
theorem process_groups_new_shape {o : Bootstrap.Oracle} {bl : List String} :
    ∀ {gs : List (String × Bootstrap.GroupData)} {st : Store}
      {stats : Bootstrap.Stats} {st1 : Store} {s1 : Bootstrap.Stats},
      Bootstrap.process_groups o bl gs st stats = .ok (st1, s1) →
      ∀ v ∈ st1.variants, v ∉ st.variants →
        ∃ gname gdata pname d arch,
          (gname, gdata) ∈ gs ∧
          (pname, Bootstrap.Entry.dict d) ∈ gdata.products.getD [] ∧
          arch ∈ d.arches.getD ["x86_64"] ∧
          v.name = pname ++ "-" ++ arch ∧
          v.build_config = Bootstrap.mkBuildConfig d := by
  intro gs
  induction gs with
  | nil =>
    intro st stats st1 s1 h v hv hnv
    rw [Bootstrap.process_groups] at h
    simp only [Except.ok.injEq, Prod.mk.injEq] at h
    rcases h with ⟨h1, h2⟩
    subst h1
    exact absurd hv hnv
  | cons g rest ih =>
    intro st stats st1 s1 h v hv hnv
    obtain ⟨gname, gdata⟩ := g
    rw [Bootstrap.process_groups] at h
    cases hbl : bl.contains (pyLower gname)
    case true =>
      simp only [hbl, if_true] at h
      obtain ⟨gn, gd, pn, d, a, hg, hrest⟩ := ih h v hv hnv
      exact ⟨gn, gd, pn, d, a, List.mem_cons_of_mem _ hg, hrest⟩
    case false =>
      simp only [hbl, Bool.false_eq_true, if_false] at h
      cases hcg : Bootstrap.create_product_group o gname none st stats
      case error s => rw [hcg] at h; exact absurd h (by simp)
      case ok res =>
        obtain ⟨popt, stA, sA⟩ := res
        have hvarA := create_product_group_ok_variants hcg
        cases popt with
        | none =>
          simp only [hcg] at h
          obtain ⟨gn, gd, pn, d, a, hg, hrest⟩ :=
            ih h v hv (by rw [hvarA]; exact hnv)
          exact ⟨gn, gd, pn, d, a, List.mem_cons_of_mem _ hg, hrest⟩
        | some pg =>
          simp only [hcg] at h
          cases hp : gdata.products with
          | none =>
            simp only [hp] at h
            obtain ⟨gn, gd, pn, d, a, hg, hrest⟩ :=
              ih h v hv (by rw [hvarA]; exact hnv)
            exact ⟨gn, gd, pn, d, a, List.mem_cons_of_mem _ hg, hrest⟩
          | some entries =>
            simp only [hp] at h
            cases hpp : Bootstrap.process_products o pg entries stA sA
            case error s => rw [hpp] at h; exact absurd h (by simp)
            case ok r =>
              obtain ⟨stB, sB⟩ := r
              rw [hpp] at h
              by_cases hvB : v ∈ stB.variants
              · obtain ⟨pn, d, a, hmem, hrest⟩ :=
                  process_products_new_shape hpp v hvB
                    (by rw [hvarA]; exact hnv)
                exact ⟨gname, gdata, pn, d, a, List.mem_cons_self _ _,
                  by rw [hp]; exact hmem, hrest⟩
              · obtain ⟨gn, gd, pn, d, a, hg, hrest⟩ := ih h v hv hvB
                exact ⟨gn, gd, pn, d, a, List.mem_cons_of_mem _ hg, hrest⟩

/-- Claim C8: the `build_config` assembled for a new Variant contains
exactly the entry's `releasever` when present, the entry's `stages` when
present, and the key list of `repository_groups` when present, and is
left unset when none is present (the source agrees with that reading),
and every Variant created by a run of the import engine is named
`"<product_name>-<arch>"` for one listed architecture of one well-formed
entry and carries exactly that entry's assembled `build_config`. -/
theorem c8_variant_name_and_build_config :
    (∀ pd, Bootstrap.mkBuildConfig pd = Bootstrap.specBuildConfig pd) ∧
    (∀ (o : Bootstrap.Oracle) (bl : List String)
       (gs : List (String × Bootstrap.GroupData)) (st : Store)
       (stats : Bootstrap.Stats) (st1 : Store) (s1 : Bootstrap.Stats),
       Bootstrap.process_groups o bl gs st stats = .ok (st1, s1) →
       ∀ v ∈ st1.variants, v ∉ st.variants →
         ∃ gname gdata pname d arch,
           (gname, gdata) ∈ gs ∧
           (pname, Bootstrap.Entry.dict d) ∈ gdata.products.getD [] ∧
           arch ∈ d.arches.getD ["x86_64"] ∧
           v.name = pname ++ "-" ++ arch ∧
           v.build_config = Bootstrap.specBuildConfig d) := by
  refine ⟨mkBuildConfig_eq_spec, ?_⟩
  intro o bl gs st stats st1 s1 h v hv hnv
  obtain ⟨gn, gd, pn, d, a, hg, hpmem, ha, hname, hbc⟩ :=
    process_groups_new_shape h v hv hnv
  exact ⟨gn, gd, pn, d, a, hg, hpmem, ha, hname,
    by rw [hbc, mkBuildConfig_eq_spec]⟩

/-- Witness for C8: running the engine over one group with one product
and architecture list `["x86_64"]` on the empty store creates the
variant named "p-x86_64" with no `build_config`, as the claim theorem
requires. -/
theorem c8_witness :
    ∃ gname gdata pname d arch,
      (gname, gdata) ∈ wC8Groups ∧
      (pname, Bootstrap.Entry.dict d) ∈ gdata.products.getD [] ∧
      arch ∈ d.arches.getD ["x86_64"] ∧
      wC8Variant.name = pname ++ "-" ++ arch ∧
      wC8Variant.build_config = Bootstrap.specBuildConfig d :=
  c8_variant_name_and_build_config.2 Bootstrap.noFault [] wC8Groups
    emptyStore Bootstrap.initStats _ _ rfl wC8Variant
    (List.mem_singleton.mpr rfl) (by simp [emptyStore])

/-- Counterexample to claim C3: for a fresh store and a product entry
whose `arches` key is present but an empty list, the claim predicts one
Architecture and one Variant for x86_64, but the engine creates neither:
`dict.get` only defaults when the key is absent, and the falsy empty
list makes the engine skip `create_variants` entirely. -/
theorem c3_counterexample :
    ∃ st1 s1,
      Bootstrap.process_groups Bootstrap.noFault (Bootstrap.initBlacklist none)
        c3EmptyArchesGroups emptyStore Bootstrap.initStats = .ok (st1, s1) ∧
      st1.architectures = [] ∧ st1.variants = [] :=
  ⟨_, _, rfl, rfl, rfl⟩

/-- Amended claim C3: for a well-formed product entry the architecture
list used is the entry's `arches` field, defaulting to `["x86_64"]` only
when the key is absent — in which case exactly one Architecture and one
Variant for x86_64 are created for a fresh product; when the key is
present but an empty list, the list is falsy, `create_variants` is never
invoked, and no Architecture or Variant is created; when it is present
and nonempty, exactly that list is handed to `create_variants`. -/
theorem c3_amended_default_only_when_arches_absent
    (gname pname : String) (d : Bootstrap.ProductData)
    (hjl : d.just_like = none)
    (hbl : (Bootstrap.initBlacklist none).contains (pyLower gname) = false) :
    (d.arches = none →
       ∃ st1 s1,
         Bootstrap.process_groups Bootstrap.noFault
           (Bootstrap.initBlacklist none)
           [(gname, { products := some [(pname, Bootstrap.Entry.dict d)] })]
           emptyStore Bootstrap.initStats = .ok (st1, s1) ∧
         st1.architectures.map (fun a => a.name) = ["x86_64"] ∧
         st1.variants.map (fun v => v.name) = [pname ++ "-" ++ "x86_64"]) ∧
    (d.arches = some [] →
       ∃ st1 s1,
         Bootstrap.process_groups Bootstrap.noFault
           (Bootstrap.initBlacklist none)
           [(gname, { products := some [(pname, Bootstrap.Entry.dict d)] })]
           emptyStore Bootstrap.initStats = .ok (st1, s1) ∧
         st1.architectures = [] ∧ st1.variants = []) ∧
    (∀ l, d.arches = some l → l.isEmpty = false →
       Bootstrap.process_groups Bootstrap.noFault
           (Bootstrap.initBlacklist none)
           [(gname, { products := some [(pname, Bootstrap.Entry.dict d)] })]
           emptyStore Bootstrap.initStats =
       match Bootstrap.create_variants Bootstrap.noFault
           (bootProduct pname d) l d (bootStore2 gname pname d) bootStats2 with
       | .error s => .error s
       | .ok (_, st2, s2) => .ok (st2, s2)) := by
  refine ⟨?_, ?_, ?_⟩
  · intro harch
    simp only [Bootstrap.process_groups, hbl, Bool.false_eq_true, if_false,
      Bootstrap.create_product_group, Bootstrap.noFault, emptyStore,
      List.find?_nil, Bootstrap.process_products, hjl, Option.isSome_none,
      Bootstrap.create_product, harch, Option.getD_none, List.isEmpty_cons,
      Bootstrap.create_variants]
    exact ⟨_, _, rfl, rfl, rfl⟩
  · intro harch
    simp only [Bootstrap.process_groups, hbl, Bool.false_eq_true, if_false,
      Bootstrap.create_product_group, Bootstrap.noFault, emptyStore,
      List.find?_nil, Bootstrap.process_products, hjl, Option.isSome_none,
      Bootstrap.create_product, harch, Option.getD_some, List.isEmpty_nil,
      if_true]
    exact ⟨_, _, rfl, rfl, rfl⟩
  · intro l harch hne
    simp only [Bootstrap.process_groups, hbl, Bool.false_eq_true, if_false,
      Bootstrap.create_product_group, Bootstrap.noFault, emptyStore,
      List.find?_nil, Bootstrap.process_products, hjl, Option.isSome_none,
      Bootstrap.create_product, harch, Option.getD_some, hne,
      List.nil_append, Bootstrap.initStats, Nat.reduceAdd,
      bootStore2, bootPG, bootProduct, bootStats2]
    cases hcv : Bootstrap.create_variants Bootstrap.noFault
        (bootProduct pname d) l d (bootStore2 gname pname d) bootStats2 with
    | error s =>
      simp only [bootStore2, bootPG, bootProduct, bootStats2,
        Bootstrap.noFault] at hcv
      simp [hcv]
    | ok r =>
      obtain ⟨vs, st2, s2⟩ := r
      simp only [bootStore2, bootPG, bootProduct, bootStats2,
        Bootstrap.noFault] at hcv
      simp [hcv, Bootstrap.process_products, Bootstrap.process_groups]

/-- Witness for amended C3: for the keyless entry (no `arches`) under
group "g" and product "p", the run on the empty store satisfies all
three clauses of the amended claim. -/
theorem c3_witness :
    (c3DefaultPD.arches = none →
       ∃ st1 s1,
         Bootstrap.process_groups Bootstrap.noFault
           (Bootstrap.initBlacklist none)
           [("g", { products := some [("p", Bootstrap.Entry.dict c3DefaultPD)] })]
           emptyStore Bootstrap.initStats = .ok (st1, s1) ∧
         st1.architectures.map (fun a => a.name) = ["x86_64"] ∧
         st1.variants.map (fun v => v.name) = ["p" ++ "-" ++ "x86_64"]) ∧
    (c3DefaultPD.arches = some [] →
       ∃ st1 s1,
         Bootstrap.process_groups Bootstrap.noFault
           (Bootstrap.initBlacklist none)
           [("g", { products := some [("p", Bootstrap.Entry.dict c3DefaultPD)] })]
           emptyStore Bootstrap.initStats = .ok (st1, s1) ∧
         st1.architectures = [] ∧ st1.variants = []) ∧
    (∀ l, c3DefaultPD.arches = some l → l.isEmpty = false →
       Bootstrap.process_groups Bootstrap.noFault
           (Bootstrap.initBlacklist none)
           [("g", { products := some [("p", Bootstrap.Entry.dict c3DefaultPD)] })]
           emptyStore Bootstrap.initStats =
       match Bootstrap.create_variants Bootstrap.noFault
           (bootProduct "p" c3DefaultPD) l c3DefaultPD
           (bootStore2 "g" "p" c3DefaultPD) bootStats2 with
       | .error s => .error s
       | .ok (_, st2, s2) => .ok (st2, s2)) :=
  c3_amended_default_only_when_arches_absent "g" "p" c3DefaultPD rfl
    (by decide)

/-- Store growth is reflexive. -/
theorem storeGrows_refl (s : Store) : Bootstrap.StoreGrows s s :=
  ⟨⟨[], by simp⟩, ⟨[], by simp⟩, ⟨[], by simp⟩, ⟨[], by simp⟩⟩

/-- Store growth composes. -/
theorem storeGrows_trans {s t u : Store} (h1 : Bootstrap.StoreGrows s t)
    (h2 : Bootstrap.StoreGrows t u) : Bootstrap.StoreGrows s u := by
  obtain ⟨⟨a1, ha1⟩, ⟨b1, hb1⟩, ⟨c1, hc1⟩, ⟨d1, hd1⟩⟩ := h1
  obtain ⟨⟨a2, ha2⟩, ⟨b2, hb2⟩, ⟨c2, hc2⟩, ⟨d2, hd2⟩⟩ := h2
  exact ⟨⟨a1 ++ a2, by rw [ha2, ha1, List.append_assoc]⟩,
         ⟨b1 ++ b2, by rw [hb2, hb1, List.append_assoc]⟩,
         ⟨c1 ++ c2, by rw [hc2, hc1, List.append_assoc]⟩,
         ⟨d1 ++ d2, by rw [hd2, hd1, List.append_assoc]⟩⟩

/-- A successful `find?` is stable under appending rows: the first match
stays the first match. -/
theorem find?_append_some {α : Type} {p : α → Bool} {l l' : List α} {a : α}
    (h : l.find? p = some a) : (l ++ l').find? p = some a := by
  induction l with
  | nil => simp [List.find?] at h
  | cons x xs ih =>
    rw [List.cons_append]
    cases hp : p x with
    | true =>
      rw [List.find?_cons_of_pos _ hp] at h
      rw [List.find?_cons_of_pos _ hp]
      exact h
    | false =>
      rw [List.find?_cons_of_neg _ (by simp [hp])] at h
      rw [List.find?_cons_of_neg _ (by simp [hp])]
      exact ih h

/-- Variant coverage survives store growth. -/
theorem variantCovered_mono {s t : Store} {aid : Nat}
    (hg : Bootstrap.StoreGrows s t)
    (h : Bootstrap.variantCovered s aid = true) :
    Bootstrap.variantCovered t aid = true := by
  obtain ⟨_, _, _, ⟨lv, hv⟩⟩ := hg
  unfold Bootstrap.variantCovered at h ⊢
  obtain ⟨v, hfind⟩ := Option.isSome_iff_exists.mp h
  rw [hv, find?_append_some hfind]
  rfl

/-- Architecture saturation survives store growth. -/
theorem archSaturated_mono {s t : Store} {pid : Nat} {arch : String}
    (hg : Bootstrap.StoreGrows s t)
    (h : Bootstrap.archSaturated s pid arch = true) :
    Bootstrap.archSaturated t pid arch = true := by
  obtain ⟨_, _, ⟨la, ha⟩, _⟩ := id hg
  unfold Bootstrap.archSaturated at h ⊢
  cases hfind : s.architectures.find?
      (fun a => a.product_id == pid && a.name == arch) with
  | none => rw [hfind] at h; exact absurd h (by simp)
  | some a0 =>
    rw [hfind] at h
    rw [ha, find?_append_some hfind]
    exact variantCovered_mono hg h

/-- Entry saturation survives store growth. -/
theorem entrySaturated_mono {s t : Store} {gid : Nat}
    {e : String × Bootstrap.Entry} (hg : Bootstrap.StoreGrows s t)
    (h : Bootstrap.entrySaturated s gid e = true) :
    Bootstrap.entrySaturated t gid e = true := by
  obtain ⟨pname, pdata⟩ := e
  cases pdata with
  | other v => rfl
  | dict d =>
    unfold Bootstrap.entrySaturated at h ⊢
    cases hj : d.just_like.isSome with
    | true => simp [hj]
    | false =>
      simp only [hj, Bool.false_eq_true, if_false] at h ⊢
      cases hfind : s.products.find?
          (fun p => p.name == pname && p.product_group_id == gid) with
      | none => rw [hfind] at h; exact absurd h (by simp)
      | some p =>
        rw [hfind] at h
        obtain ⟨_, ⟨lp, hp⟩, _, _⟩ := id hg
        rw [hp, find?_append_some hfind]
        simp only [List.all_eq_true] at h ⊢
        exact fun arch harch => archSaturated_mono hg (h arch harch)

/-- Group saturation survives store growth. -/
theorem groupSaturated_mono {s t : Store} {bl : List String}
    {g : String × Bootstrap.GroupData} (hg : Bootstrap.StoreGrows s t)
    (h : Bootstrap.groupSaturated s bl g = true) :
    Bootstrap.groupSaturated t bl g = true := by
  obtain ⟨gname, gdata⟩ := g
  unfold Bootstrap.groupSaturated at h ⊢
  cases hb : bl.contains (pyLower gname) with
  | true => simp only [hb, if_true]
  | false =>
    simp only [hb, Bool.false_eq_true, if_false] at h ⊢
    cases hfind : s.groups.find? (fun g => g.name == gname) with
    | none => rw [hfind] at h; exact absurd h (by simp)
    | some g0 =>
      rw [hfind] at h
      obtain ⟨⟨lg, hgl⟩, _, _, _⟩ := id hg
      rw [hgl, find?_append_some hfind]
      simp only [List.all_eq_true] at h ⊢
      exact fun e he => entrySaturated_mono hg (h e he)

/-- Saturation of a whole configuration survives store growth. -/
theorem saturated_mono {s t : Store} {bl : List String}
    {gs : List (String × Bootstrap.GroupData)}
    (hg : Bootstrap.StoreGrows s t)
    (h : Bootstrap.saturated s bl gs = true) :
    Bootstrap.saturated t bl gs = true := by
  unfold Bootstrap.saturated at h ⊢
  simp only [List.all_eq_true] at h ⊢
  exact fun g hgmem => groupSaturated_mono hg (h g hgmem)

/-- A failed `find?` stays failed on the prefix when rows are appended:
the search continues in the new rows. -/
theorem find?_append_none {α : Type} {p : α → Bool} {l l' : List α}
    (h : l.find? p = none) : (l ++ l').find? p = l'.find? p := by
  induction l with
  | nil => rfl
  | cons x xs ih =>
    cases hp : p x with
    | true =>
      rw [List.find?_cons_of_pos _ hp] at h
      exact absurd h (by simp)
    | false =>
      rw [List.find?_cons_of_neg _ (by simp [hp])] at h
      rw [List.cons_append, List.find?_cons_of_neg _ (by simp [hp])]
      exact ih h

/-- The fault-free oracle reports no group fault. -/
theorem noFault_groupFault (x : String) :
    Bootstrap.noFault.groupFault x = .ok := rfl

/-- The fault-free oracle reports no product fault. -/
theorem noFault_productFault (x : String) :
    Bootstrap.noFault.productFault x = .ok := rfl

/-- The fault-free oracle reports no architecture fault. -/
theorem noFault_archFault (x y : String) :
    Bootstrap.noFault.archFault x y = .ok := rfl

/-- A fault-free `create_variants` pass always succeeds, only appends
rows, and afterwards every listed architecture exists with a variant. -/
theorem create_variants_post (product : ProductRow)
    (pd : Bootstrap.ProductData) :
    ∀ (l : List String) (st : Store) (stats : Bootstrap.Stats),
      ∃ vs st1 s1,
        Bootstrap.create_variants Bootstrap.noFault product l pd st stats
          = .ok (vs, st1, s1) ∧
        Bootstrap.StoreGrows st st1 ∧
        ∀ arch ∈ l, Bootstrap.archSaturated st1 product.id arch = true := by
  intro l
  induction l with
  | nil =>
    intro st stats
    exact ⟨[], st, stats, rfl, storeGrows_refl st, by simp⟩
  | cons arch rest ih =>
    intro st stats
    cases hfind : st.architectures.find?
        (fun a => a.product_id == product.id && a.name == arch) with
    | some a0 =>
      cases hvf : st.variants.find? (fun w => w.architecture_id == a0.id) with
      | some v0 =>
        obtain ⟨vs, st1, s1, hrec, hgrow, hsat⟩ :=
          ih st { stats with skipped := stats.skipped + 1 }
        refine ⟨v0 :: vs, st1, s1, ?_, hgrow, ?_⟩
        · simp only [Bootstrap.create_variants, noFault_archFault, hfind,
            hvf, hrec]
        · intro x hx
          rcases List.mem_cons.mp hx with rfl | hx'
          · refine archSaturated_mono hgrow ?_
            simp [Bootstrap.archSaturated, Bootstrap.variantCovered,
              hfind, hvf]
          · exact hsat x hx'
      | none =>
        obtain ⟨vs, st1, s1, hrec, hgrow, hsat⟩ :=
          ih { st with
                 variants := st.variants ++
                   [{ id := st.nextId,
                      name := product.name ++ "-" ++ arch,
                      description := some (product.name ++ " for " ++ arch
                        ++ " architecture"),
                      build_config := Bootstrap.mkBuildConfig pd,
                      architecture_id := a0.id,
                      created_at := st.clock, updated_at := st.clock }],
                 nextId := st.nextId + 1, clock := st.clock + 1 }
             { stats with variants_created := stats.variants_created + 1 }
        refine ⟨{ id := st.nextId,
                  name := product.name ++ "-" ++ arch,
                  description := some (product.name ++ " for " ++ arch
                    ++ " architecture"),
                  build_config := Bootstrap.mkBuildConfig pd,
                  architecture_id := a0.id,
                  created_at := st.clock, updated_at := st.clock } :: vs,
                st1, s1, ?_,
                storeGrows_trans
                  ⟨⟨[], by simp⟩, ⟨[], by simp⟩, ⟨[], by simp⟩, ⟨_, rfl⟩⟩
                  hgrow, ?_⟩
        · simp only [Bootstrap.create_variants, noFault_archFault, hfind,
            hvf, hrec]
        · intro x hx
          rcases List.mem_cons.mp hx with rfl | hx'
          · refine archSaturated_mono hgrow ?_
            simp [Bootstrap.archSaturated, Bootstrap.variantCovered,
              hfind, find?_append_none hvf]
          · exact hsat x hx'
    | none =>
      cases hvf : st.variants.find?
          (fun w => w.architecture_id == st.nextId) with
      | some v0 =>
        obtain ⟨vs, st1, s1, hrec, hgrow, hsat⟩ :=
          ih { st with
                 architectures := st.architectures ++
                   [{ id := st.nextId, name := arch,
                      display_name := some (Bootstrap.archDisplayName arch),
                      description := some (arch ++ " architecture for "
                        ++ product.name),
                      product_id := product.id,
                      created_at := st.clock, updated_at := st.clock }],
                 nextId := st.nextId + 1, clock := st.clock + 1 }
             { stats with skipped := stats.skipped + 1 }
        refine ⟨v0 :: vs, st1, s1, ?_,
                storeGrows_trans
                  ⟨⟨[], by simp⟩, ⟨[], by simp⟩, ⟨_, rfl⟩, ⟨[], by simp⟩⟩
                  hgrow, ?_⟩
        · simp only [Bootstrap.create_variants, noFault_archFault, hfind,
            hvf, hrec]
        · intro x hx
          rcases List.mem_cons.mp hx with rfl | hx'
          · refine archSaturated_mono hgrow ?_
            simp [Bootstrap.archSaturated, Bootstrap.variantCovered,
              find?_append_none hfind, hvf]
          · exact hsat x hx'
      | none =>
        obtain ⟨vs, st1, s1, hrec, hgrow, hsat⟩ :=
          ih { st with
                 architectures := st.architectures ++
                   [{ id := st.nextId, name := arch,
                      display_name := some (Bootstrap.archDisplayName arch),
                      description := some (arch ++ " architecture for "
                        ++ product.name),
                      product_id := product.id,
                      created_at := st.clock, updated_at := st.clock }],
                 variants := st.variants ++
                   [{ id := st.nextId + 1,
                      name := product.name ++ "-" ++ arch,
                      description := some (product.name ++ " for " ++ arch
                        ++ " architecture"),
                      build_config := Bootstrap.mkBuildConfig pd,
                      architecture_id := st.nextId,
                      created_at := st.clock + 1, updated_at := st.clock + 1 }],
                 nextId := st.nextId + 1 + 1, clock := st.clock + 1 + 1 }
             { stats with variants_created := stats.variants_created + 1 }
        refine ⟨{ id := st.nextId + 1,
                  name := product.name ++ "-" ++ arch,
                  description := some (product.name ++ " for " ++ arch
                    ++ " architecture"),
                  build_config := Bootstrap.mkBuildConfig pd,
                  architecture_id := st.nextId,
                  created_at := st.clock + 1, updated_at := st.clock + 1 } :: vs,
                st1, s1, ?_,
                storeGrows_trans
                  ⟨⟨[], by simp⟩, ⟨[], by simp⟩, ⟨_, rfl⟩, ⟨_, rfl⟩⟩
                  hgrow, ?_⟩
        · simp only [Bootstrap.create_variants, noFault_archFault, hfind,
            hvf, hrec]
        · intro x hx
          rcases List.mem_cons.mp hx with rfl | hx'
          · refine archSaturated_mono hgrow ?_
            simp [Bootstrap.archSaturated, Bootstrap.variantCovered,
              find?_append_none hfind, find?_append_none hvf]
          · exact hsat x hx'

/-- A successful `find?` over the groups table survives store growth. -/
theorem groups_find?_mono {s t : Store} {p : ProductGroupRow → Bool}
    {a : ProductGroupRow} (hg : Bootstrap.StoreGrows s t)
    (h : s.groups.find? p = some a) : t.groups.find? p = some a := by
  obtain ⟨⟨l, hl⟩, _, _, _⟩ := hg
  rw [hl]
  exact find?_append_some h

/-- A successful `find?` over the products table survives store growth. -/
theorem products_find?_mono {s t : Store} {p : ProductRow → Bool}
    {a : ProductRow} (hg : Bootstrap.StoreGrows s t)
    (h : s.products.find? p = some a) : t.products.find? p = some a := by
  obtain ⟨_, ⟨l, hl⟩, _, _⟩ := hg
  rw [hl]
  exact find?_append_some h

/-- A fault-free group handler always succeeds with a group row that a
name lookup afterwards finds. -/
theorem create_product_group_post (name : String) (desc : Option String)
    (st : Store) (stats : Bootstrap.Stats) :
    ∃ pg st1 s1,
      Bootstrap.create_product_group Bootstrap.noFault name desc st stats
        = .ok (some pg, st1, s1) ∧
      Bootstrap.StoreGrows st st1 ∧
      st1.groups.find? (fun g => g.name == name) = some pg := by
  cases hfind : st.groups.find? (fun g => g.name == name) with
  | some g =>
    refine ⟨g, st, { stats with skipped := stats.skipped + 1 }, ?_,
      storeGrows_refl st, hfind⟩
    simp only [Bootstrap.create_product_group, noFault_groupFault, hfind]
  | none =>
    refine ⟨{ id := st.nextId, name := name,
              description := some (pyOrStr desc
                ("Product group for " ++ name ++ " products")),
              created_at := st.clock, updated_at := st.clock },
            ({ st with
               groups := st.groups ++
                 [{ id := st.nextId,
                    name := name,
                    description := some (pyOrStr desc
                      ("Product group for " ++ name ++ " products")),
                    created_at := st.clock,
                    updated_at := st.clock }],
               nextId := st.nextId + 1,
               clock := st.clock + 1 } : Store),
            { stats with product_groups_created :=
                stats.product_groups_created + 1 }, ?_, ?_, ?_⟩
    · simp only [Bootstrap.create_product_group, noFault_groupFault, hfind]
    · exact ⟨⟨_, rfl⟩, ⟨[], by simp⟩, ⟨[], by simp⟩, ⟨[], by simp⟩⟩
    · simp only
      rw [find?_append_none hfind, List.find?_cons_of_pos _ (by simp)]

/-- A fault-free product handler always succeeds with a product row that
a `(name, group)` lookup afterwards finds. -/
theorem create_product_post (name : String) (pg : ProductGroupRow)
    (version desc : Option String) (st : Store) (stats : Bootstrap.Stats) :
    ∃ p st1 s1,
      Bootstrap.create_product Bootstrap.noFault name pg version desc st stats
        = .ok (some p, st1, s1) ∧
      Bootstrap.StoreGrows st st1 ∧
      st1.products.find?
        (fun q => q.name == name && q.product_group_id == pg.id) = some p := by
  cases hfind : st.products.find?
      (fun q => q.name == name && q.product_group_id == pg.id) with
  | some p =>
    refine ⟨p, st, { stats with skipped := stats.skipped + 1 }, ?_,
      storeGrows_refl st, hfind⟩
    simp only [Bootstrap.create_product, noFault_productFault, hfind]
  | none =>
    refine ⟨{ id := st.nextId, name := name, version := version,
              description := some (pyOrStr desc ("Product " ++ name)),
              product_group_id := pg.id,
              created_at := st.clock, updated_at := st.clock },
            ({ st with
               products := st.products ++
                 [{ id := st.nextId,
                    name := name,
                    description := some (pyOrStr desc ("Product " ++ name)),
                    version := version,
                    product_group_id := pg.id,
                    created_at := st.clock,
                    updated_at := st.clock }],
               nextId := st.nextId + 1,
               clock := st.clock + 1 } : Store),
            { stats with products_created := stats.products_created + 1 },
            ?_, ?_, ?_⟩
    · simp only [Bootstrap.create_product, noFault_productFault, hfind]
    · exact ⟨⟨[], by simp⟩, ⟨_, rfl⟩, ⟨[], by simp⟩, ⟨[], by simp⟩⟩
    · simp only
      rw [find?_append_none hfind, List.find?_cons_of_pos _ (by simp)]

/-- A fault-free product loop always succeeds, only appends rows, and
leaves every entry of the list saturated for the given group. -/
theorem process_products_post (pg : ProductGroupRow) :
    ∀ (entries : List (String × Bootstrap.Entry)) (st : Store)
      (stats : Bootstrap.Stats),
      ∃ st1 s1,
        Bootstrap.process_products Bootstrap.noFault pg entries st stats
          = .ok (st1, s1) ∧
        Bootstrap.StoreGrows st st1 ∧
        ∀ e ∈ entries, Bootstrap.entrySaturated st1 pg.id e = true := by
  intro entries
  induction entries with
  | nil =>
    intro st stats
    exact ⟨st, stats, rfl, storeGrows_refl st, by simp⟩
  | cons e rest ih =>
    intro st stats
    obtain ⟨pname, pdata⟩ := e
    cases pdata with
    | other val =>
      obtain ⟨st1, s1, hrec, hgrow, hsat⟩ := ih st stats
      refine ⟨st1, s1, ?_, hgrow, ?_⟩
      · simp only [Bootstrap.process_products, hrec]
      · intro e he
        rcases List.mem_cons.mp he with rfl | he'
        · rfl
        · exact hsat e he'
    | dict d =>
      cases hj : d.just_like with
      | some jv =>
        obtain ⟨st1, s1, hrec, hgrow, hsat⟩ := ih st stats
        refine ⟨st1, s1, ?_, hgrow, ?_⟩
        · simp only [Bootstrap.process_products, hj, Option.isSome_some,
            if_true, hrec]
        · intro e he
          rcases List.mem_cons.mp he with rfl | he'
          · simp [Bootstrap.entrySaturated, hj]
          · exact hsat e he'
      | none =>
        obtain ⟨p, stA, sA, hcp, hgrowA, hfindA⟩ :=
          create_product_post pname pg
            (some (pyStr (d.releasever.getD (Val.s "1.0"))))
            (some ("Product " ++ pname ++ " version "
              ++ pyStr (d.releasever.getD (Val.s "1.0")))) st stats
        cases hae : (d.arches.getD ["x86_64"]).isEmpty with
        | true =>
          obtain ⟨st1, s1, hrec, hgrowB, hsat⟩ := ih stA sA
          refine ⟨st1, s1, ?_, storeGrows_trans hgrowA hgrowB, ?_⟩
          · simp only [Bootstrap.process_products, hj, Option.isSome_none,
              Bool.false_eq_true, if_false, hcp, hae, if_true, hrec]
          · intro e he
            rcases List.mem_cons.mp he with rfl | he'
            · simp only [Bootstrap.entrySaturated, hj, Option.isSome_none,
                Bool.false_eq_true, if_false,
                products_find?_mono hgrowB hfindA,
                List.isEmpty_iff.mp hae]
              rfl
            · exact hsat e he'
        | false =>
          obtain ⟨vs, stB, sB, hcv, hgrowB, hsatV⟩ :=
            create_variants_post p d (d.arches.getD ["x86_64"]) stA sA
          obtain ⟨st1, s1, hrec, hgrowC, hsat⟩ := ih stB sB
          refine ⟨st1, s1, ?_,
            storeGrows_trans hgrowA (storeGrows_trans hgrowB hgrowC), ?_⟩
          · simp only [Bootstrap.process_products, hj, Option.isSome_none,
              Bool.false_eq_true, if_false, hcp, hae, hcv, hrec]
          · intro e he
            rcases List.mem_cons.mp he with rfl | he'
            · simp only [Bootstrap.entrySaturated, hj, Option.isSome_none,
                Bool.false_eq_true, if_false,
                products_find?_mono (storeGrows_trans hgrowB hgrowC) hfindA,
                List.all_eq_true]
              intro arch harch
              exact archSaturated_mono hgrowC (hsatV arch harch)
            · exact hsat e he'

/-- A fault-free group loop always succeeds, only appends rows, and
leaves the whole configuration saturated. -/
theorem process_groups_post (bl : List String) :
    ∀ (gs : List (String × Bootstrap.GroupData)) (st : Store)
      (stats : Bootstrap.Stats),
      ∃ st1 s1,
        Bootstrap.process_groups Bootstrap.noFault bl gs st stats
          = .ok (st1, s1) ∧
        Bootstrap.StoreGrows st st1 ∧
        Bootstrap.saturated st1 bl gs = true := by
  intro gs
  induction gs with
  | nil =>
    intro st stats
    exact ⟨st, stats, rfl, storeGrows_refl st, by simp [Bootstrap.saturated]⟩
  | cons g rest ih =>
    intro st stats
    obtain ⟨gname, gdata⟩ := g
    cases hbl : bl.contains (pyLower gname) with
    | true =>
      obtain ⟨st1, s1, hrec, hgrow, hsat⟩ := ih st stats
      refine ⟨st1, s1, ?_, hgrow, ?_⟩
      · simp only [Bootstrap.process_groups, hbl, if_true, hrec]
      · simp only [Bootstrap.saturated, List.all_cons, Bool.and_eq_true]
        refine ⟨?_, by simpa [Bootstrap.saturated] using hsat⟩
        simp only [Bootstrap.groupSaturated, hbl, if_true]
    | false =>
      obtain ⟨pg, stA, sA, hcg, hgrowA, hfindA⟩ :=
        create_product_group_post gname none st stats
      cases hp : gdata.products with
      | none =>
        obtain ⟨st1, s1, hrec, hgrowB, hsat⟩ := ih stA sA
        refine ⟨st1, s1, ?_, storeGrows_trans hgrowA hgrowB, ?_⟩
        · simp only [Bootstrap.process_groups, hbl, Bool.false_eq_true,
            if_false, hcg, hp, hrec]
        · simp only [Bootstrap.saturated, List.all_cons, Bool.and_eq_true]
          refine ⟨?_, by simpa [Bootstrap.saturated] using hsat⟩
          simp only [Bootstrap.groupSaturated, hbl, Bool.false_eq_true,
            if_false, groups_find?_mono hgrowB hfindA, hp]
          rfl
      | some entries =>
        obtain ⟨stB, sB, hpp, hgrowB, hsatE⟩ :=
          process_products_post pg entries stA sA
        obtain ⟨st1, s1, hrec, hgrowC, hsat⟩ := ih stB sB
        refine ⟨st1, s1, ?_,
          storeGrows_trans hgrowA (storeGrows_trans hgrowB hgrowC), ?_⟩
        · simp only [Bootstrap.process_groups, hbl, Bool.false_eq_true,
            if_false, hcg, hp, hpp, hrec]
        · simp only [Bootstrap.saturated, List.all_cons, Bool.and_eq_true]
          refine ⟨?_, by simpa [Bootstrap.saturated] using hsat⟩
          simp only [Bootstrap.groupSaturated, hbl, Bool.false_eq_true,
            if_false, groups_find?_mono (storeGrows_trans hgrowB hgrowC) hfindA,
            hp, Option.getD_some, List.all_eq_true]
          intro e he
          exact entrySaturated_mono hgrowC (hsatE e he)

/-- Over a store where every listed architecture is saturated, a
fault-free `create_variants` pass leaves the store untouched and only
adds one `skipped` per listed architecture. -/
theorem create_variants_saturated (product : ProductRow)
    (pd : Bootstrap.ProductData) :
    ∀ (l : List String) (st : Store) (stats : Bootstrap.Stats),
      (∀ arch ∈ l, Bootstrap.archSaturated st product.id arch = true) →
      ∃ vs,
        Bootstrap.create_variants Bootstrap.noFault product l pd st stats
          = .ok (vs, st, Bootstrap.addSkipped stats l.length) := by
  intro l
  induction l with
  | nil =>
    intro st stats _
    refine ⟨[], ?_⟩
    have h0 : Bootstrap.addSkipped stats ([] : List String).length = stats := by
      cases stats with
      | mk a b c d e => simp [Bootstrap.addSkipped]
    rw [h0]
    rfl
  | cons arch rest ih =>
    intro st stats hsat
    have hh := hsat arch (List.mem_cons_self _ _)
    unfold Bootstrap.archSaturated at hh
    cases hfind : st.architectures.find?
        (fun a => a.product_id == product.id && a.name == arch) with
    | none => rw [hfind] at hh; exact absurd hh (by simp)
    | some a0 =>
      rw [hfind] at hh
      unfold Bootstrap.variantCovered at hh
      obtain ⟨v0, hvf⟩ := Option.isSome_iff_exists.mp hh
      obtain ⟨vs, hrec⟩ :=
        ih st { stats with skipped := stats.skipped + 1 }
          (fun a ha => hsat a (List.mem_cons_of_mem _ ha))
      refine ⟨v0 :: vs, ?_⟩
      simp only [Bootstrap.create_variants, noFault_archFault, hfind, hvf,
        hrec, Bootstrap.addSkipped, List.length_cons]
      rw [show stats.skipped + 1 + rest.length
          = stats.skipped + (rest.length + 1) from by omega]

/-- Over a store where every entry of the list is saturated for the
group, a fault-free product loop leaves the store untouched and adds to
`skipped` one per processed entry plus one per listed architecture. -/
theorem process_products_saturated (pg : ProductGroupRow) :
    ∀ (entries : List (String × Bootstrap.Entry)) (st : Store)
      (stats : Bootstrap.Stats),
      (∀ e ∈ entries, Bootstrap.entrySaturated st pg.id e = true) →
      Bootstrap.process_products Bootstrap.noFault pg entries st stats
        = .ok (st, Bootstrap.addSkipped stats
            (Bootstrap.entriesProductCount entries
              + Bootstrap.entriesArchCount entries)) := by
  intro entries
  induction entries with
  | nil =>
    intro st stats _
    have h0 : Bootstrap.addSkipped stats
        (Bootstrap.entriesProductCount []
          + Bootstrap.entriesArchCount []) = stats := by
      cases stats with
      | mk a b c d e =>
        simp [Bootstrap.addSkipped, Bootstrap.entriesProductCount,
          Bootstrap.entriesArchCount]
    rw [h0]
    rfl
  | cons e rest ih =>
    intro st stats hsat
    obtain ⟨pname, pdata⟩ := e
    have hrest : ∀ e ∈ rest, Bootstrap.entrySaturated st pg.id e = true :=
      fun e he => hsat e (List.mem_cons_of_mem _ he)
    cases pdata with
    | other val =>
      rw [show Bootstrap.process_products Bootstrap.noFault pg
            ((pname, Bootstrap.Entry.other val) :: rest) st stats
          = Bootstrap.process_products Bootstrap.noFault pg rest st stats
          from by simp only [Bootstrap.process_products], ih st stats hrest]
      refine congrArg Except.ok (congrArg (Prod.mk st) ?_)
      simp only [Bootstrap.addSkipped, Bootstrap.entriesProductCount,
        Bootstrap.entriesArchCount, Bootstrap.entryWellFormed,
        Bootstrap.entryArchCount, List.filter_cons, List.map_cons,
        List.sum_cons, Bool.false_eq_true, if_false,
        Bootstrap.Stats.mk.injEq]
      simp only [true_and, and_true]
      omega
    | dict d =>
      have hhead := hsat (pname, .dict d) (List.mem_cons_self _ _)
      cases hj : d.just_like with
      | some jv =>
        rw [show Bootstrap.process_products Bootstrap.noFault pg
              ((pname, Bootstrap.Entry.dict d) :: rest) st stats
            = Bootstrap.process_products Bootstrap.noFault pg rest st stats
            from by simp only [Bootstrap.process_products, hj,
              Option.isSome_some, if_true], ih st stats hrest]
        refine congrArg Except.ok (congrArg (Prod.mk st) ?_)
        simp only [Bootstrap.addSkipped, Bootstrap.entriesProductCount,
          Bootstrap.entriesArchCount, Bootstrap.entryWellFormed,
          Bootstrap.entryArchCount, List.filter_cons, List.map_cons,
          List.sum_cons, hj, Option.isNone_some, Bool.false_eq_true,
          if_false, Bootstrap.Stats.mk.injEq]
        simp only [true_and, and_true]
        omega
      | none =>
        simp only [Bootstrap.entrySaturated, hj, Option.isSome_none,
          Bool.false_eq_true, if_false] at hhead
        cases hfind : st.products.find?
            (fun q => q.name == pname && q.product_group_id == pg.id) with
        | none => rw [hfind] at hhead; exact absurd hhead (by simp)
        | some p =>
          rw [hfind] at hhead
          simp only [List.all_eq_true] at hhead
          cases hae : (d.arches.getD ["x86_64"]).isEmpty with
          | true =>
            rw [show Bootstrap.process_products Bootstrap.noFault pg
                  ((pname, Bootstrap.Entry.dict d) :: rest) st stats
                = Bootstrap.process_products Bootstrap.noFault pg rest st
                    { stats with skipped := stats.skipped + 1 }
                from by simp only [Bootstrap.process_products, hj,
                  Option.isSome_none, Bool.false_eq_true, if_false,
                  Bootstrap.create_product, noFault_productFault, hfind,
                  hae, if_true],
              ih st { stats with skipped := stats.skipped + 1 } hrest]
            refine congrArg Except.ok (congrArg (Prod.mk st) ?_)
            simp only [Bootstrap.addSkipped, Bootstrap.entriesProductCount,
              Bootstrap.entriesArchCount, Bootstrap.entryWellFormed,
              Bootstrap.entryArchCount, List.filter_cons, List.map_cons,
              List.sum_cons, hj, Option.isNone_none, if_true,
              List.length_cons, List.isEmpty_iff.mp hae, List.length_nil,
              Bootstrap.Stats.mk.injEq]
            simp only [true_and, and_true]
            omega
          | false =>
            obtain ⟨vs, hcv⟩ := create_variants_saturated p d
              (d.arches.getD ["x86_64"]) st
              { stats with skipped := stats.skipped + 1 } hhead
            rw [show Bootstrap.process_products Bootstrap.noFault pg
                  ((pname, Bootstrap.Entry.dict d) :: rest) st stats
                = Bootstrap.process_products Bootstrap.noFault pg rest st
                    (Bootstrap.addSkipped
                      { stats with skipped := stats.skipped + 1 }
                      (d.arches.getD ["x86_64"]).length)
                from by simp only [Bootstrap.process_products, hj,
                  Option.isSome_none, Bool.false_eq_true, if_false,
                  Bootstrap.create_product, noFault_productFault, hfind,
                  hae, hcv],
              ih st _ hrest]
            refine congrArg Except.ok (congrArg (Prod.mk st) ?_)
            simp only [Bootstrap.addSkipped, Bootstrap.entriesProductCount,
              Bootstrap.entriesArchCount, Bootstrap.entryWellFormed,
              Bootstrap.entryArchCount, List.filter_cons, List.map_cons,
              List.sum_cons, hj, Option.isNone_none, if_true,
              List.length_cons, Bootstrap.Stats.mk.injEq]
            simp only [true_and, and_true]
            omega

/-- Over a saturated store a fault-free group loop leaves the store
untouched and adds to `skipped` exactly one per processed group,
product, and architecture slot. -/
theorem process_groups_saturated (bl : List String) :
    ∀ (gs : List (String × Bootstrap.GroupData)) (st : Store)
      (stats : Bootstrap.Stats),
      Bootstrap.saturated st bl gs = true →
      Bootstrap.process_groups Bootstrap.noFault bl gs st stats
        = .ok (st, Bootstrap.addSkipped stats
            (Bootstrap.countGroupsProcessed bl gs
              + Bootstrap.countProductsProcessed bl gs
              + Bootstrap.countVariantsProcessed bl gs)) := by
  intro gs
  induction gs with
  | nil =>
    intro st stats _
    have h0 : Bootstrap.addSkipped stats
        (Bootstrap.countGroupsProcessed bl []
          + Bootstrap.countProductsProcessed bl []
          + Bootstrap.countVariantsProcessed bl []) = stats := by
      cases stats with
      | mk a b c d e =>
        simp [Bootstrap.addSkipped, Bootstrap.countGroupsProcessed,
          Bootstrap.countProductsProcessed, Bootstrap.countVariantsProcessed]
    rw [h0]
    rfl
  | cons g rest ih =>
    intro st stats hsat
    obtain ⟨gname, gdata⟩ := g
    simp only [Bootstrap.saturated, List.all_cons, Bool.and_eq_true] at hsat
    obtain ⟨hhead, hrest⟩ := hsat
    cases hbl : bl.contains (pyLower gname) with
    | true =>
      rw [show Bootstrap.process_groups Bootstrap.noFault bl
            ((gname, gdata) :: rest) st stats
          = Bootstrap.process_groups Bootstrap.noFault bl rest st stats
          from by simp only [Bootstrap.process_groups, hbl, if_true],
        ih st stats hrest]
      refine congrArg Except.ok (congrArg (Prod.mk st) ?_)
      simp only [Bootstrap.addSkipped, Bootstrap.countGroupsProcessed,
        Bootstrap.countProductsProcessed, Bootstrap.countVariantsProcessed,
        Bootstrap.groupKept, List.filter_cons, hbl, Bool.not_true,
        Bool.false_eq_true, if_false, Bootstrap.Stats.mk.injEq]
    | false =>
      simp only [Bootstrap.groupSaturated, hbl, Bool.false_eq_true,
        if_false] at hhead
      cases hfindg : st.groups.find? (fun g => g.name == gname) with
      | none => rw [hfindg] at hhead; exact absurd hhead (by simp)
      | some g0 =>
        rw [hfindg] at hhead
        cases hp : gdata.products with
        | none =>
          rw [show Bootstrap.process_groups Bootstrap.noFault bl
                ((gname, gdata) :: rest) st stats
              = Bootstrap.process_groups Bootstrap.noFault bl rest st
                  { stats with skipped := stats.skipped + 1 }
              from by simp only [Bootstrap.process_groups, hbl,
                Bool.false_eq_true, if_false,
                Bootstrap.create_product_group, noFault_groupFault,
                hfindg, hp],
            ih st { stats with skipped := stats.skipped + 1 } hrest]
          refine congrArg Except.ok (congrArg (Prod.mk st) ?_)
          simp only [Bootstrap.addSkipped, Bootstrap.countGroupsProcessed,
            Bootstrap.countProductsProcessed,
            Bootstrap.countVariantsProcessed, Bootstrap.groupKept,
            List.filter_cons, hbl, Bool.not_false, if_true,
            List.length_cons, List.map_cons, List.sum_cons, hp,
            Bootstrap.entriesProductCount, Bootstrap.entriesArchCount,
            Option.getD_none, List.filter_nil, List.length_nil,
            List.map_nil, List.sum_nil, Bootstrap.Stats.mk.injEq]
          simp only [true_and, and_true]
          omega
        | some entries =>
          rw [hp] at hhead
          simp only [Option.getD_some] at hhead
          have hsatE : ∀ e ∈ entries,
              Bootstrap.entrySaturated st g0.id e = true := by
            simpa [List.all_eq_true] using hhead
          rw [show Bootstrap.process_groups Bootstrap.noFault bl
                ((gname, gdata) :: rest) st stats
              = Bootstrap.process_groups Bootstrap.noFault bl rest st
                  (Bootstrap.addSkipped
                    { stats with skipped := stats.skipped + 1 }
                    (Bootstrap.entriesProductCount entries
                      + Bootstrap.entriesArchCount entries))
              from by simp only [Bootstrap.process_groups, hbl,
                Bool.false_eq_true, if_false,
                Bootstrap.create_product_group, noFault_groupFault,
                hfindg, hp,
                process_products_saturated g0 entries st
                  { stats with skipped := stats.skipped + 1 } hsatE],
            ih st _ hrest]
          refine congrArg Except.ok (congrArg (Prod.mk st) ?_)
          simp only [Bootstrap.addSkipped, Bootstrap.countGroupsProcessed,
            Bootstrap.countProductsProcessed,
            Bootstrap.countVariantsProcessed, Bootstrap.groupKept,
            List.filter_cons, hbl, Bool.not_false, if_true,
            List.length_cons, List.map_cons, List.sum_cons, hp,
            Option.getD_some, Bootstrap.Stats.mk.injEq]
          simp only [true_and, and_true]
          omega

/-- Claim C1: running the import engine a second time on an identical
configuration against the store the first run committed makes no change
at all to the store — zero new ProductGroup, Product, Architecture, or
Variant rows — and the second run's `skipped` counter equals the number
of non-blacklisted groups processed plus the number of well-formed
non-`just_like` product entries processed plus the number of variants
processed, one per listed architecture. -/
theorem c1_second_run_creates_nothing
    (bl : List String) (cfg : Bootstrap.Config) (st0 : Store) :
    ∃ st1 s1 s2,
      Bootstrap.bootstrap Bootstrap.noFault bl cfg st0 = .committed st1 s1 ∧
      Bootstrap.bootstrap Bootstrap.noFault bl cfg st1 = .committed st1 s2 ∧
      s2.product_groups_created = 0 ∧
      s2.products_created = 0 ∧
      s2.variants_created = 0 ∧
      s2.errors = 0 ∧
      s2.skipped =
        Bootstrap.countGroupsProcessed bl (cfg.product_groups.getD [])
          + Bootstrap.countProductsProcessed bl (cfg.product_groups.getD [])
          + Bootstrap.countVariantsProcessed bl (cfg.product_groups.getD []) := by
  cases hcfg : cfg.product_groups with
  | none =>
    refine ⟨st0, Bootstrap.initStats, Bootstrap.initStats, ?_, ?_,
      rfl, rfl, rfl, rfl, ?_⟩
    · simp only [Bootstrap.bootstrap, Bootstrap.process_product_groups, hcfg]
    · simp only [Bootstrap.bootstrap, Bootstrap.process_product_groups, hcfg]
    · simp [hcfg, Bootstrap.countGroupsProcessed,
        Bootstrap.countProductsProcessed, Bootstrap.countVariantsProcessed,
        Bootstrap.initStats]
  | some gs =>
    obtain ⟨st1, s1, hrun1, _, hsat⟩ :=
      process_groups_post bl gs st0 Bootstrap.initStats
    have hrun2 := process_groups_saturated bl gs st1 Bootstrap.initStats hsat
    refine ⟨st1, s1,
      Bootstrap.addSkipped Bootstrap.initStats
        (Bootstrap.countGroupsProcessed bl gs
          + Bootstrap.countProductsProcessed bl gs
          + Bootstrap.countVariantsProcessed bl gs),
      ?_, ?_, rfl, rfl, rfl, rfl, ?_⟩
    · simp only [Bootstrap.bootstrap, Bootstrap.process_product_groups,
        hcfg, hrun1]
    · simp only [Bootstrap.bootstrap, Bootstrap.process_product_groups,
        hcfg, hrun2]
    · simp [Bootstrap.addSkipped, Bootstrap.initStats, hcfg]
